import Mathlib

/-!
Shallow embedding of the station map layout and selection-state engine of the
trainsign web UI (src/ui/src/utils/directions.ts, src/ui/src/utils/geo.ts,
src/ui/src/components/StopsMapView.tsx), together with theorems settling the
frozen claims about it.

Modelling conventions:
* JavaScript strings are Lean `String`s; character-level operations are
  expressed through `String.data`.
* JavaScript numbers are modelled as `ℚ` (all numeric claims here are exact
  decimal computations; no claim depends on binary floating-point artifacts).
* The haversine distance `calculateDistance` involves real-valued
  trigonometry; the definitions that merely pass distances around are
  parametrized by an arbitrary distance function `calcDist : ℚ → ℚ → ℚ → ℚ → ℚ`
  standing for it, and the theorems hold for every such function.
* A JavaScript function that can throw is embedded with result type `Except`.
* JavaScript plain objects used as string-keyed records are embedded as
  association lists in key-insertion order: assignment `o[k] = v` is `setKey`,
  lookup `o[k]` is `lookupKey`, `Object.values o` is `List.map Prod.snd`.
* `localeCompare`-based sorting is modelled as lexicographic comparison of the
  code points (`charListLe`), and the stable `Array.prototype.sort` as the
  stable `List.insertionSort`.
-/

/-- Transit kinds, from `type: TransitType` in src/ui/src/types.ts. -/
inductive TransitType where
  | train
  | bus
deriving DecidableEq, Repr

/-- A stop record, from the `Stop` interface in src/ui/src/types.ts. -/
structure Stop where
  stop_id : String
  stop_name : String
  lat : ℚ
  lon : ℚ
  line : String
  direction : String
  distance : Option ℚ
  type : TransitType
deriving DecidableEq, Repr

/-- A user location, from the `UserLocation` interface in src/ui/src/types.ts. -/
structure UserLocation where
  lat : ℚ
  lon : ℚ
deriving DecidableEq, Repr

/-- Embeds `getDirectionFromStopId` from src/ui/src/utils/directions.ts:
returns `'N'` / `'S'` according to the trailing character, `null` (here
`none`) otherwise.  `stopId.endsWith c` for a single character is exactly
"the last character equals `c`". -/
def getDirectionFromStopId (stopId : String) : Option Char :=
  match stopId.data.getLast? with
  | some c => if c = 'N' then some 'N' else if c = 'S' then some 'S' else none
  | none => none

/-- Embeds `getBaseStationId` from src/ui/src/utils/directions.ts: if the id
ends with `'N'` or `'S'`, drop the last character (`slice(0, -1)`), else
return the input unchanged. -/
def getBaseStationId (stopId : String) : String :=
  match stopId.data.getLast? with
  | some c => if c = 'N' ∨ c = 'S' then String.mk stopId.data.dropLast else stopId
  | none => stopId

/-- Embeds `getRouteFromStopId` from src/ui/src/utils/directions.ts.
The source strips one trailing `N`/`S` (`.replace(/[NS]$/, '')`), reads the
first character of the remainder (`base[0]`, which is `undefined` when `base`
is empty), returns it if it is a digit and its upper-cased form otherwise.
When `base` is empty, `first` is `undefined`: `/^\d/.test(undefined)` is
false and `undefined.toUpperCase()` throws a `TypeError`, embedded here as
`Except.error`. -/
def getRouteFromStopId (stopId : String) : Except String String :=
  let base : String :=
    match stopId.data.getLast? with
    | some c => if c = 'N' ∨ c = 'S' then String.mk stopId.data.dropLast else stopId
    | none => stopId
  match base.data.head? with
  | none => Except.error "TypeError: Cannot read properties of undefined"
  | some first => if first.isDigit then Except.ok (String.singleton first)
                  else Except.ok (String.singleton first.toUpper)

/-- Embeds `Math.round` (round half toward positive infinity). -/
def jsRound (q : ℚ) : ℤ := ⌊q + 1/2⌋

/-- Embeds `Number.prototype.toFixed(1)` for the exact rational value: the
sign is split off, then the nearest multiple of 1/10 is chosen, taking the
larger candidate on a tie, and rendered with one decimal digit. -/
def toFixed1Abs (q : ℚ) : String :=
  let n : ℕ := (⌊q * 10 + 1/2⌋).toNat
  toString (n / 10) ++ "." ++ toString (n % 10)

/-- Embeds `Number.prototype.toFixed(1)` including the sign split of the
specification of `toFixed`. -/
def toFixed1 (q : ℚ) : String :=
  if q < 0 then "-" ++ toFixed1Abs (-q) else toFixed1Abs q

/-- Embeds `formatDistance` from src/ui/src/utils/geo.ts: below 0.1 miles
render `Math.round(miles * 5280)` feet, otherwise `miles.toFixed(1)` miles. -/
def formatDistance (miles : ℚ) : String :=
  if miles < 1/10 then toString (jsRound (miles * 5280)) ++ " ft"
  else toFixed1 miles ++ " mi"

/-- The tri-state selection indicator of src/ui/src/components/StopsMapView.tsx
(`type SelectionState = 'none' | 'partial' | 'full'`); the source's string
literal `'partial'` is the constructor `part`. -/
inductive SelectionState where
  | none
  | part
  | full
deriving DecidableEq, Repr

/-- A grouped station, from the `StationGroup` interface in
src/ui/src/components/StopsMapView.tsx; the `stops : { N?, S? }` record is
flattened to the two optional fields `stopN` and `stopS`. -/
structure StationGroup where
  baseId : String
  name : String
  lat : ℚ
  lon : ℚ
  route : String
  type : TransitType
  stopN : Option Stop
  stopS : Option Stop
deriving DecidableEq, Repr

/-- Embeds `getSelectionState` from src/ui/src/components/StopsMapView.tsx.
The JavaScript values `group.stops.N && selectedStopIds.includes(...)` are
only used for their truthiness, embedded as Booleans. -/
def getSelectionState (selectedStopIds : List String) (group : StationGroup) :
    SelectionState :=
  if group.type = TransitType.bus then
    if selectedStopIds.contains group.baseId then .full else .none
  else
    let nSelected : Bool :=
      match group.stopN with
      | some s => selectedStopIds.contains s.stop_id
      | none => false
    let sSelected : Bool :=
      match group.stopS with
      | some s => selectedStopIds.contains s.stop_id
      | none => false
    let hasN : Bool := group.stopN.isSome
    let hasS : Bool := group.stopS.isSome
    if hasN && hasS && nSelected && sSelected then .full
    else if nSelected || sSelected then .part
    else .none

/-- Lexicographic comparison of character lists by code point; models the
comparator `(a, b) => a.localeCompare(b)` used for sorting (total preorder,
here concretely code-point order). -/
def charListLe : List Char → List Char → Bool
  | [], _ => true
  | _ :: _, [] => false
  | a :: as, b :: bs => if a < b then true else if b < a then false else charListLe as bs

/-- String comparison used by the sorts of the source (models `localeCompare`
ordering). -/
def strLe (a b : String) : Bool := charListLe a.data b.data

/-- Association-list update embedding the JavaScript record assignment
`o[k] = v`: an existing key keeps its position and gets the new value, a new
key is appended (string-keyed records preserve insertion order). -/
def setKey {β : Type} (k : String) (v : β) : List (String × β) → List (String × β)
  | [] => [(k, v)]
  | (k', v') :: rest => if k' = k then (k', v) :: rest else (k', v') :: setKey k v rest

/-- Association-list lookup embedding the JavaScript record read `o[k]`
(`undefined` is `none`). -/
def lookupKey {β : Type} (k : String) : List (String × β) → Option β
  | [] => none
  | (k', v) :: rest => if k' = k then some v else lookupKey k rest

/-- The singleton group built for a non-train stop in the `stationGroups`
memo of src/ui/src/components/StopsMapView.tsx (route sentinel "Bus", no
variants). -/
def mkBusGroup (s : Stop) : StationGroup :=
  { baseId := s.stop_id, name := s.stop_name, lat := s.lat, lon := s.lon,
    route := "Bus", type := TransitType.bus, stopN := none, stopS := none }

/-- The fresh group created on first sight of a train base id in the
`stationGroups` memo (representative name/lat/lon from that record, empty
variants). -/
def mkFreshGroup (baseId route : String) (s : Stop) : StationGroup :=
  { baseId := baseId, name := s.stop_name, lat := s.lat, lon := s.lon,
    route := route, type := TransitType.train, stopN := none, stopS := none }

/-- Embeds `groups[baseId].stops[direction] = stop`. -/
def setVariant (dir : Char) (s : Stop) (g : StationGroup) : StationGroup :=
  if dir = 'N' then { g with stopN := some s } else { g with stopS := some s }

/-- One iteration of the `for (const stop of stops)` loop of the
`stationGroups` memo in src/ui/src/components/StopsMapView.tsx.  A thrown
`TypeError` from `getRouteFromStopId` aborts the whole computation
(`Except.error`). -/
def stationGroupsStep (groups : List (String × StationGroup)) (stop : Stop) :
    Except String (List (String × StationGroup)) :=
  if stop.type ≠ TransitType.train then
    Except.ok (setKey stop.stop_id (mkBusGroup stop) groups)
  else
    match getDirectionFromStopId stop.stop_id with
    | none => Except.ok groups
    | some dir =>
      let baseId := getBaseStationId stop.stop_id
      match getRouteFromStopId stop.stop_id with
      | Except.error e => Except.error e
      | Except.ok route =>
        let g : StationGroup :=
          match lookupKey baseId groups with
          | some g0 => g0
          | none => mkFreshGroup baseId route stop
        Except.ok (setKey baseId (setVariant dir stop g) groups)

/-- The keyed record built by the `stationGroups` memo, before
`Object.values`. -/
def buildStationGroups (stops : List Stop) :
    Except String (List (String × StationGroup)) :=
  stops.foldl
    (fun acc stop =>
      match acc with
      | Except.error e => Except.error e
      | Except.ok groups => stationGroupsStep groups stop)
    (Except.ok [])

/-- Embeds the `stationGroups` memo of src/ui/src/components/StopsMapView.tsx:
`Object.values(groups)` of the record built by the loop. -/
def stationGroups (stops : List Stop) : Except String (List StationGroup) :=
  match buildStationGroups stops with
  | Except.error e => Except.error e
  | Except.ok groups => Except.ok (groups.map Prod.snd)

/-- The collision threshold `MIN_SEPARATION = 0.00025` of the
`adjustedPositions` memo. -/
def MIN_SEPARATION : ℚ := 25 / 100000

/-- The attempt budget `maxAttempts = 20` of the `adjustedPositions` memo. -/
def maxAttempts : ℕ := 20

/-- The rectangular proximity test of the `adjustedPositions` memo: a
collision holds when BOTH the latitude and the longitude deltas are below
`MIN_SEPARATION`. -/
def isCollision (cand p : ℚ × ℚ) : Bool :=
  decide (|cand.1 - p.1| < MIN_SEPARATION) && decide (|cand.2 - p.2| < MIN_SEPARATION)

/-- Whether the candidate collides with any already-assigned position (the
inner `for (const existingId of Object.keys(positions))` scan; the scan only
determines whether some collision exists, and the replacement candidate
depends only on the attempt counter, so the scan order is irrelevant). -/
def hasCollisionWith (existing : List (ℚ × ℚ)) (cand : ℚ × ℚ) : Bool :=
  existing.any (fun p => isCollision cand p)

/-- The collision-avoidance `while (attempts < maxAttempts)` loop, with the
remaining budget `fuel = maxAttempts - attempts` made explicit so that the
recursion is structural.  `offsetFn a` is the spiral candidate computed from
the raw coordinates at attempt counter `a` (in the source
`(group.lat + radius*cos(angle), group.lon + radius*sin(angle))` with
`angle = a * 137.5°` and `radius = MIN_SEPARATION * (1 + ⌊a/8⌋ * 0.5)`; it is
kept abstract here because sine and cosine are real-valued, and every theorem
below holds for an arbitrary `offsetFn`).  The returned Boolean instruments
whether the loop exhausted its budget (`attempts` reached `maxAttempts`), in
which case the last candidate is accepted unchecked. -/
def adjustLoopGo (existing : List (ℚ × ℚ)) (offsetFn : ℕ → ℚ × ℚ) :
    ℕ → ℚ × ℚ → ℕ → (ℚ × ℚ) × Bool
  | 0, cand, _ => (cand, true)
  | fuel + 1, cand, attempts =>
    if hasCollisionWith existing cand then
      adjustLoopGo existing offsetFn fuel (offsetFn attempts) (attempts + 1)
    else (cand, false)

/-- Runs the collision-avoidance loop for one group from its raw position
with the full budget. -/
def adjustLoop (existing : List (ℚ × ℚ)) (offsetFn : ℕ → ℚ × ℚ) (raw : ℚ × ℚ) :
    (ℚ × ℚ) × Bool :=
  adjustLoopGo existing offsetFn maxAttempts raw 0

/-- Embeds the `adjustedPositions` memo of
src/ui/src/components/StopsMapView.tsx: sort the groups by `baseId`
(`localeCompare`), then assign each group the result of the
collision-avoidance loop against the already-assigned positions.  `spiral g a`
stands for the source's trigonometric spiral candidate for group `g` at
attempt counter `a` (see `adjustLoopGo`). -/
def adjustedPositions (spiral : StationGroup → ℕ → ℚ × ℚ)
    (groups : List StationGroup) : List (String × (ℚ × ℚ)) :=
  let sortedGroups := groups.insertionSort (fun a b => strLe a.baseId b.baseId = true)
  sortedGroups.foldl
    (fun positions g =>
      setKey g.baseId
        (adjustLoop (positions.map Prod.snd) (spiral g) (g.lat, g.lon)).1 positions)
    []

/-- Instrumented variant of `adjustedPositions` that keeps, next to each
assigned position, the budget-exhaustion flag of its collision-avoidance
loop (needed to state the budget exemption of the separation property). -/
def adjustedPositionsFlagged (spiral : StationGroup → ℕ → ℚ × ℚ)
    (groups : List StationGroup) : List (String × ((ℚ × ℚ) × Bool)) :=
  let sortedGroups := groups.insertionSort (fun a b => strLe a.baseId b.baseId = true)
  sortedGroups.foldl
    (fun positions g =>
      setKey g.baseId
        (adjustLoop (positions.map (fun kv => kv.2.1)) (spiral g) (g.lat, g.lon)) positions)
    []

/-- The per-marker popup state of the `StationMarker` component of
src/ui/src/components/StopsMapView.tsx: the `isPinned` React state, whether
the leaflet popup is open, and the pending close timer (`closeTimeoutRef`),
carrying the value of `isPinned` captured by the scheduled callback's
closure. -/
structure MarkerState where
  isPinned : Bool
  popupOpen : Bool
  pendingClose : Option Bool
deriving DecidableEq, Repr

/-- The external events handled by `StationMarker`: marker mouseover/mouseout
and click, the popup body's mouse enter/leave, a click on the popup's close
control, and the firing of the scheduled close timer. -/
inductive MarkerEvent where
  | mouseOver
  | mouseOut
  | click
  | closeClick
  | popupEnter
  | popupLeave
  | timerFire
deriving DecidableEq, Repr

/-- One transition of the popup interaction state machine, read off the event
handlers of `StationMarker`:
* `mouseover`: `clearCloseTimeout(); openPopup()`;
* `mouseout` / popup `mouseleave`: `if (!isPinned) scheduleClose()`, where
  `scheduleClose` clears the old timer and schedules a new callback capturing
  the current `isPinned`;
* `click`: `setIsPinned(true); clearCloseTimeout(); openPopup()`;
* close-control click: `setIsPinned(false); closePopup()`;
* popup `mouseenter`: `clearCloseTimeout()`;
* timer firing (only possible while a timer is pending): the callback runs
  `if (!isPinned) closePopup()` with its captured `isPinned`, and the timer is
  spent. -/
def markerStep (s : MarkerState) (e : MarkerEvent) : MarkerState :=
  match e with
  | MarkerEvent.mouseOver => { s with pendingClose := none, popupOpen := true }
  | MarkerEvent.mouseOut =>
      if s.isPinned then s else { s with pendingClose := some s.isPinned }
  | MarkerEvent.click =>
      { s with isPinned := true, pendingClose := none, popupOpen := true }
  | MarkerEvent.closeClick => { s with isPinned := false, popupOpen := false }
  | MarkerEvent.popupEnter => { s with pendingClose := none }
  | MarkerEvent.popupLeave =>
      if s.isPinned then s else { s with pendingClose := some s.isPinned }
  | MarkerEvent.timerFire =>
      match s.pendingClose with
      | none => s
      | some captured =>
        if captured then { s with pendingClose := none }
        else { s with pendingClose := none, popupOpen := false }

/-- A small JavaScript heap for the frame properties of
`sortStopsByDistance`: a store of `Stop` objects and a store of arrays of
object references, both addressed by index; allocation appends. -/
structure JSHeap where
  objs : List Stop
  arrays : List (List ℕ)
deriving DecidableEq, Repr

/-- Reads an array from the heap (a dangling reference reads as empty). -/
def getArr (h : JSHeap) (r : ℕ) : List ℕ := h.arrays.getD r []

/-- A placeholder object for dangling references. -/
def defaultStop : Stop :=
  { stop_id := "", stop_name := "", lat := 0, lon := 0, line := "",
    direction := "", distance := none, type := TransitType.train }

/-- Reads a `Stop` object from the heap. -/
def getObj (h : JSHeap) (r : ℕ) : Stop := h.objs.getD r defaultStop

/-- Embeds `sortStopsByDistance` from src/ui/src/utils/geo.ts against the
explicit heap, parametrized by the haversine function `calcDist` (see the
module comment).  Without a user location, `[...stops]` allocates a fresh
array holding the same object references, which is then sorted in place by
`stop_name` (`localeCompare`, modelled by `strLe`); with a location,
`stops.map(stop => ({ ...stop, distance }))` allocates one fresh object per
stop (a copy carrying the computed distance) plus a fresh array of the new
references, which is then sorted in place by `(a.distance ?? 0) -
(b.distance ?? 0)`.  The input array and the pre-existing objects are never
written.  Returns the heap after the call and the reference of the returned
array. -/
def sortStopsByDistance (calcDist : ℚ → ℚ → ℚ → ℚ → ℚ) (h : JSHeap)
    (stopsRef : ℕ) (userLocation : Option UserLocation) : JSHeap × ℕ :=
  match userLocation with
  | none =>
    let refs := getArr h stopsRef
    let sorted := refs.insertionSort
      (fun a b => strLe (getObj h a).stop_name (getObj h b).stop_name = true)
    ({ h with arrays := h.arrays ++ [sorted] }, h.arrays.length)
  | some u =>
    let refs := getArr h stopsRef
    let newObjs := refs.map (fun r =>
      let s := getObj h r
      { s with distance := some (calcDist u.lat u.lon s.lat s.lon) })
    let base := h.objs.length
    let newRefs := (List.range refs.length).map (fun i => base + i)
    let h2 : JSHeap := { h with objs := h.objs ++ newObjs }
    let sorted := newRefs.insertionSort
      (fun a b => ((getObj h2 a).distance.getD 0) ≤ ((getObj h2 b).distance.getD 0))
    ({ h2 with arrays := h2.arrays ++ [sorted] }, h2.arrays.length)

/-- Embeds the per-marker computation of the `stationGroups.map` render loop
of `StopsMapView` (src/ui/src/components/StopsMapView.tsx): the distance
shown in the popup is `calculateDistance(location.lat, location.lon,
group.lat, group.lon)` on the group's raw representative coordinates
(`undefined` without a location), and the marker is drawn at
`adjustedPositions[group.baseId] || [group.lat, group.lon]`.  Returns the
pair (adjusted marker position, popup distance); `calcDist` stands for the
haversine function. -/
def markerInput (calcDist : ℚ → ℚ → ℚ → ℚ → ℚ) (location : Option UserLocation)
    (adjusted : List (String × (ℚ × ℚ))) (group : StationGroup) :
    (ℚ × ℚ) × Option ℚ :=
  let distance : Option ℚ :=
    match location with
    | some loc => some (calcDist loc.lat loc.lon group.lat group.lon)
    | none => none
  let adjustedPosition : ℚ × ℚ :=
    match lookupKey group.baseId adjusted with
    | some p => p
    | none => (group.lat, group.lon)
  (adjustedPosition, distance)

/-- The first record of `stops` that contributes to the train group keyed
`k`: a train record with a direction suffix whose base id is `k` (used to
state the "first-seen representative wins" rule). -/
def firstTrainAt (k : String) (stops : List Stop) : Option Stop :=
  stops.find? (fun s =>
    decide (s.type = TransitType.train) &&
    (getDirectionFromStopId s.stop_id).isSome &&
    decide (getBaseStationId s.stop_id = k))

/-- What it means for a grouper output group to account for an input record:
a train record must sit in one of the group's directional variant slots, a
non-train record must be represented by exactly its singleton bus group. -/
def containsRecord (g : StationGroup) (s : Stop) : Prop :=
  if s.type = TransitType.train then g.stopN = some s ∨ g.stopS = some s
  else g = mkBusGroup s

/-- Well-formedness of a grouper input, as forced by the counterexamples:
globally unique stop ids, every train record carries a direction suffix and
a nonempty base id (a bare "N"/"S" id makes `getRouteFromStopId` throw), and
no non-train record's stop id coincides with a train record's base id (the
source keys both by the same record field, so such a collision merges or
drops records). -/
def StopsWF (stops : List Stop) : Prop :=
  (stops.map Stop.stop_id).Nodup ∧
  (∀ s ∈ stops, s.type = TransitType.train → s.stop_id ≠ "N" ∧ s.stop_id ≠ "S") ∧
  (∀ s ∈ stops, s.type = TransitType.train → (getDirectionFromStopId s.stop_id).isSome = true) ∧
  (∀ b ∈ stops, ∀ t ∈ stops, b.type ≠ TransitType.train → t.type = TransitType.train →
      b.stop_id ≠ getBaseStationId t.stop_id)

/-- Invariant tying the grouper's keyed record to the processed input
records (stated over the association list `G`, before `Object.values`). -/
def GroupsOk (stops : List Stop) (G : List (String × StationGroup)) : Prop :=
  (G.map Prod.fst).Nodup ∧
  (∀ p ∈ G, (Prod.snd p).baseId = Prod.fst p) ∧
  (∀ p ∈ G, (Prod.snd p).type = TransitType.bus →
      ∃ s ∈ stops, s.type ≠ TransitType.train ∧ Prod.fst p = s.stop_id ∧
        Prod.snd p = mkBusGroup s) ∧
  (∀ p ∈ G, ∀ s : Stop, (Prod.snd p).stopN = some s →
      s ∈ stops ∧ s.type = TransitType.train ∧
        getDirectionFromStopId s.stop_id = some 'N' ∧
        getBaseStationId s.stop_id = Prod.fst p) ∧
  (∀ p ∈ G, ∀ s : Stop, (Prod.snd p).stopS = some s →
      s ∈ stops ∧ s.type = TransitType.train ∧
        getDirectionFromStopId s.stop_id = some 'S' ∧
        getBaseStationId s.stop_id = Prod.fst p) ∧
  (∀ s ∈ stops, s.type = TransitType.train → getDirectionFromStopId s.stop_id = some 'N' →
      ∃ g, lookupKey (getBaseStationId s.stop_id) G = some g ∧ g.stopN = some s) ∧
  (∀ s ∈ stops, s.type = TransitType.train → getDirectionFromStopId s.stop_id = some 'S' →
      ∃ g, lookupKey (getBaseStationId s.stop_id) G = some g ∧ g.stopS = some s) ∧
  (∀ s ∈ stops, s.type ≠ TransitType.train → lookupKey s.stop_id G = some (mkBusGroup s)) ∧
  (∀ p ∈ G, (Prod.snd p).type = TransitType.train →
      ∃ s0, firstTrainAt (Prod.fst p) stops = some s0 ∧
        (Prod.snd p).name = s0.stop_name ∧ (Prod.snd p).lat = s0.lat ∧
        (Prod.snd p).lon = s0.lon)

/-- Concrete northbound train stop used by witnesses and counterexamples. -/
def stopL12N : Stop :=
  { stop_id := "L12N", stop_name := "Graham Av", lat := 40, lon := -73,
    line := "L", direction := "N", distance := none, type := TransitType.train }

/-- Concrete southbound train stop used by witnesses. -/
def stopL12S : Stop :=
  { stop_id := "L12S", stop_name := "Graham Av", lat := 40, lon := -73,
    line := "L", direction := "S", distance := none, type := TransitType.train }

/-- Concrete bus stop whose id equals the train records' base id "L12". -/
def busL12 : Stop :=
  { stop_id := "L12", stop_name := "Graham Av Bus", lat := 41, lon := -74,
    line := "B1", direction := "", distance := none, type := TransitType.bus }

/-- Concrete train group with only the northbound variant present. -/
def groupNOnly : StationGroup :=
  { baseId := "L12", name := "Graham Av", lat := 40, lon := -73, route := "L",
    type := TransitType.train, stopN := some stopL12N, stopS := none }

/-- Concrete group used by the layout witnesses. -/
def groupA : StationGroup :=
  { baseId := "A", name := "A", lat := 0, lon := 0, route := "L",
    type := TransitType.train, stopN := none, stopS := none }

/-- Concrete group used by the layout witnesses, far from `groupA`. -/
def groupB : StationGroup :=
  { baseId := "B", name := "B", lat := 1, lon := 1, route := "L",
    type := TransitType.train, stopN := none, stopS := none }

/-- Concrete spiral-offset function used by the layout witnesses. -/
def spiral0 : StationGroup → ℕ → ℚ × ℚ := fun g _ => (g.lat, g.lon)

/-- Concrete heap used by the `sortStopsByDistance` frame witness. -/
def heap0 : JSHeap := { objs := [stopL12N, stopL12S], arrays := [[0, 1]] }

/-! Helper lemmas about the stop identifier parser. -/

theorem data_mk (l : List Char) : (String.mk l).data = l := rfl

theorem getDirection_concat (L : List Char) (a : Char) :
    getDirectionFromStopId (String.mk (L ++ [a])) =
      if a = 'N' then some 'N' else if a = 'S' then some 'S' else none := by
  simp [getDirectionFromStopId, List.getLast?_concat]

theorem getBase_concat (L : List Char) (a : Char) :
    getBaseStationId (String.mk (L ++ [a])) =
      if a = 'N' ∨ a = 'S' then String.mk L else String.mk (L ++ [a]) := by
  simp [getBaseStationId, List.getLast?_concat, List.dropLast_concat]

theorem dir_eq_some_cases (s : String) (d : Char)
    (h : getDirectionFromStopId s = some d) : d = 'N' ∨ d = 'S' := by
  obtain ⟨l⟩ := s
  induction l using List.reverseRecOn with
  | nil => simp [getDirectionFromStopId] at h
  | append_singleton L a ih =>
    rw [getDirection_concat] at h
    split_ifs at h with h1 h2
    · exact Or.inl (Option.some.inj h).symm
    · exact Or.inr (Option.some.inj h).symm

theorem stopId_data_eq_base_append (s : String) (d : Char)
    (h : getDirectionFromStopId s = some d) :
    s.data = (getBaseStationId s).data ++ [d] := by
  obtain ⟨l⟩ := s
  induction l using List.reverseRecOn with
  | nil => simp [getDirectionFromStopId] at h
  | append_singleton L a ih =>
    rw [getDirection_concat] at h
    rw [data_mk, getBase_concat]
    split_ifs at h with h1 h2
    · rw [if_pos (Or.inl h1), data_mk, h1, ← Option.some.inj h]
    · rw [if_pos (Or.inr h2), data_mk, h2, ← Option.some.inj h]

theorem base_eq_of_dir_none (s : String)
    (h : getDirectionFromStopId s = none) : getBaseStationId s = s := by
  obtain ⟨l⟩ := s
  induction l using List.reverseRecOn with
  | nil => rfl
  | append_singleton L a ih =>
    rw [getDirection_concat] at h
    rw [getBase_concat, if_neg]
    rintro (rfl | rfl) <;> simp at h

theorem stopId_ext_of_base_dir {s t : String} {d : Char}
    (hs : getDirectionFromStopId s = some d) (ht : getDirectionFromStopId t = some d)
    (hb : getBaseStationId s = getBaseStationId t) : s = t := by
  apply String.ext
  rw [stopId_data_eq_base_append s d hs, stopId_data_eq_base_append t d ht, hb]

theorem route_concat_NS (L : List Char) (a : Char) (hNS : a = 'N' ∨ a = 'S') :
    getRouteFromStopId (String.mk (L ++ [a])) =
      match L.head? with
      | none => Except.error "TypeError: Cannot read properties of undefined"
      | some first => if first.isDigit then Except.ok (String.singleton first)
                      else Except.ok (String.singleton first.toUpper) := by
  rw [getRouteFromStopId]
  simp only [data_mk, List.getLast?_concat]
  rw [if_pos hNS]
  simp only [data_mk, List.dropLast_concat]

theorem route_concat_other (L : List Char) (a : Char) (hNS : ¬(a = 'N' ∨ a = 'S')) :
    getRouteFromStopId (String.mk (L ++ [a])) =
      match (L ++ [a]).head? with
      | none => Except.error "TypeError: Cannot read properties of undefined"
      | some first => if first.isDigit then Except.ok (String.singleton first)
                      else Except.ok (String.singleton first.toUpper) := by
  rw [getRouteFromStopId]
  simp only [data_mk, List.getLast?_concat]
  rw [if_neg hNS]

theorem routeFromStopId_ok_iff (s : String) :
    (∃ r, getRouteFromStopId s = Except.ok r) ↔ (s ≠ "" ∧ s ≠ "N" ∧ s ≠ "S") := by
  obtain ⟨l⟩ := s
  induction l using List.reverseRecOn with
  | nil =>
    constructor
    · rintro ⟨r, hr⟩
      simp [getRouteFromStopId] at hr
    · rintro ⟨h1, -⟩
      exact absurd rfl h1
  | append_singleton L a ih =>
    by_cases hNS : a = 'N' ∨ a = 'S'
    · rcases L with - | ⟨c, cs⟩
      · rw [route_concat_NS [] a hNS]
        constructor
        · rintro ⟨r, hr⟩
          simp at hr
        · rcases hNS with rfl | rfl
          · rintro ⟨-, h2, -⟩
            exact absurd rfl h2
          · rintro ⟨-, -, h3⟩
            exact absurd rfl h3
      · rw [route_concat_NS (c :: cs) a hNS]
        constructor
        · rintro -
          refine ⟨?_, ?_, ?_⟩
          · intro h
            have h2 := congrArg String.data h
            simp [data_mk] at h2
          · intro h
            have h2 := congrArg String.data h
            rw [data_mk, show ("N" : String).data = ['N'] from rfl] at h2
            simp at h2
          · intro h
            have h2 := congrArg String.data h
            rw [data_mk, show ("S" : String).data = ['S'] from rfl] at h2
            simp at h2
        · rintro -
          dsimp only [List.head?]
          split <;> exact ⟨_, rfl⟩
    · rw [route_concat_other L a hNS]
      constructor
      · rintro -
        refine ⟨?_, ?_, ?_⟩
        · intro h
          have h2 := congrArg String.data h
          simp [data_mk] at h2
        · intro h
          have h2 := congrArg String.data h
          rw [data_mk, show ("N" : String).data = ['N'] from rfl] at h2
          rcases L with - | ⟨c, cs⟩
          · simp at h2
            exact hNS (Or.inl h2)
          · simp at h2
        · intro h
          have h2 := congrArg String.data h
          rw [data_mk, show ("S" : String).data = ['S'] from rfl] at h2
          rcases L with - | ⟨c, cs⟩
          · simp at h2
            exact hNS (Or.inr h2)
          · simp at h2
      · rintro -
        rcases hh : (L ++ [a]).head? with - | c
        · simp at hh
        · dsimp only
          split <;> exact ⟨_, rfl⟩

/-- Claim C2 (corrected), counterexample: contrary to the claim that the
parser never throws, `getRouteFromStopId` throws a `TypeError` on the empty
string and on the strings "N" and "S", whose direction-stripped base is
empty. -/
theorem getRouteFromStopId_counterexample :
    getRouteFromStopId "" = Except.error "TypeError: Cannot read properties of undefined" ∧
    getRouteFromStopId "N" = Except.error "TypeError: Cannot read properties of undefined" ∧
    getRouteFromStopId "S" = Except.error "TypeError: Cannot read properties of undefined" :=
  ⟨rfl, rfl, rfl⟩

/-- Claim C2 (corrected, amended): `getBaseStationId` and
`getDirectionFromStopId` are total (they are plain functions here), and
`getRouteFromStopId` returns a route string exactly for the inputs other
than "", "N" and "S"; on those three it throws (returns `Except.error`). -/
theorem getRouteFromStopId_totality (s : String) :
    (∃ r, getRouteFromStopId s = Except.ok r) ↔ (s ≠ "" ∧ s ≠ "N" ∧ s ≠ "S") :=
  routeFromStopId_ok_iff s

/-- Witness for C2: the totality theorem applied at the concrete id "L12N". -/
theorem getRouteFromStopId_totality_witness :
    ∃ r, getRouteFromStopId "L12N" = Except.ok r :=
  (getRouteFromStopId_totality "L12N").mpr (by decide)

/-- Claim C6 (confirmed): when `getDirectionFromStopId` yields a direction,
`getBaseStationId s ++ direction = s`; when it yields `null`,
`getBaseStationId s = s`. -/
theorem baseId_direction_roundtrip (s : String) :
    (∀ d : Char, getDirectionFromStopId s = some d →
        getBaseStationId s ++ String.singleton d = s) ∧
    (getDirectionFromStopId s = none → getBaseStationId s = s) := by
  constructor
  · intro d h
    apply String.ext
    rw [String.data_append, show (String.singleton d).data = [d] from rfl]
    exact (stopId_data_eq_base_append s d h).symm
  · exact base_eq_of_dir_none s

/-- Witness for C6: the round trip at "L12N" (direction present) and "L12"
(no direction). -/
theorem baseId_direction_roundtrip_witness :
    (getDirectionFromStopId "L12N" = some 'N' ∧
      getBaseStationId "L12N" ++ String.singleton 'N' = "L12N") ∧
    (getDirectionFromStopId "L12" = none ∧ getBaseStationId "L12" = "L12") :=
  ⟨⟨by decide, (baseId_direction_roundtrip "L12N").1 'N' (by decide)⟩,
   ⟨by decide, (baseId_direction_roundtrip "L12").2 (by decide)⟩⟩

/-- Claim C1 (corrected), counterexample: a train group holding only its
northbound variant, with that variant selected, resolves to `'partial'`,
not `'full'` (the source requires `hasN && hasS` for `'full'`). -/
theorem singleVariantSelected_counterexample :
    getSelectionState ["L12N"] groupNOnly = SelectionState.part ∧
    getSelectionState ["L12N"] groupNOnly ≠ SelectionState.full :=
  ⟨rfl, by decide⟩

/-- Claim C1 (corrected, amended): a train group with exactly one variant
present whose stop id is selected resolves to `'partial'`. -/
theorem singleVariantSelected_partialState (g : StationGroup) (ids : List String)
    (ht : g.type = TransitType.train)
    (h : (∃ s, g.stopN = some s ∧ g.stopS = none ∧ ids.contains s.stop_id = true) ∨
         (∃ s, g.stopS = some s ∧ g.stopN = none ∧ ids.contains s.stop_id = true)) :
    getSelectionState ids g = SelectionState.part := by
  rcases h with ⟨s, hN, hS, hc⟩ | ⟨s, hS, hN, hc⟩ <;>
  · have hm : s.stop_id ∈ ids := by simpa using hc
    simp [getSelectionState, ht, hN, hS, hm]

/-- Witness for C1: the amended theorem applied to the concrete
northbound-only group. -/
theorem singleVariantSelected_partialState_witness :
    (groupNOnly.type = TransitType.train ∧
      (∃ s, groupNOnly.stopN = some s ∧ groupNOnly.stopS = none ∧
        ["L12N"].contains s.stop_id = true)) ∧
    getSelectionState ["L12N"] groupNOnly = SelectionState.part :=
  ⟨⟨rfl, ⟨stopL12N, rfl, rfl, rfl⟩⟩,
   singleVariantSelected_partialState groupNOnly ["L12N"] rfl
     (Or.inl ⟨stopL12N, rfl, rfl, rfl⟩)⟩

/-- Claim C8 (confirmed): `formatDistance` renders the three claimed sample
values exactly, renders any value below 0.1 as `Math.round(miles * 5280)`
feet, and any value at or above 0.1 with one rounded decimal and a mile
unit. -/
theorem formatDistance_spec :
    formatDistance (1/20) = "264 ft" ∧
    formatDistance (1/10) = "0.1 mi" ∧
    formatDistance (234/100) = "2.3 mi" ∧
    (∀ m : ℚ, m < 1/10 → formatDistance m = toString (round (m * 5280)) ++ " ft") ∧
    (∀ m : ℚ, 1/10 ≤ m →
      formatDistance m =
        toString ((round (m * 10)).toNat / 10) ++ "." ++
          toString ((round (m * 10)).toNat % 10) ++ " mi") := by
  have hfeet : ∀ m : ℚ, m < 1/10 →
      formatDistance m = toString (round (m * 5280)) ++ " ft" := by
    intro m hm
    simp only [formatDistance, jsRound]
    rw [if_pos hm, round_eq]
  have hmi : ∀ m : ℚ, 1/10 ≤ m →
      formatDistance m =
        toString ((round (m * 10)).toNat / 10) ++ "." ++
          toString ((round (m * 10)).toNat % 10) ++ " mi" := by
    intro m hm
    have h0 : ¬ m < 1/10 := not_lt.mpr hm
    have h1 : ¬ m < 0 := not_lt.mpr (le_trans (by norm_num) hm)
    simp only [formatDistance, toFixed1, toFixed1Abs]
    rw [if_neg h0, if_neg h1, round_eq]
  refine ⟨?_, ?_, ?_, hfeet, hmi⟩
  · rw [hfeet (1/20) (by norm_num),
      show round ((1:ℚ)/20 * 5280) = 264 by rw [round_eq]; norm_num [Int.floor_eq_iff]]
    rfl
  · rw [hmi (1/10) (by norm_num),
      show round ((1:ℚ)/10 * 10) = 1 by rw [round_eq]; norm_num [Int.floor_eq_iff]]
    rfl
  · rw [hmi (234/100) (by norm_num),
      show round ((234:ℚ)/100 * 10) = 23 by rw [round_eq]; norm_num [Int.floor_eq_iff]]
    rfl

/-- Witness for C8: the general branch formulas applied at 1/20 and 2.34. -/
theorem formatDistance_spec_witness :
    ((1:ℚ)/20 < 1/10 ∧
      formatDistance (1/20) = toString (round ((1:ℚ)/20 * 5280)) ++ " ft") ∧
    ((1:ℚ)/10 ≤ 234/100 ∧
      formatDistance (234/100) =
        toString ((round ((234:ℚ)/100 * 10)).toNat / 10) ++ "." ++
          toString ((round ((234:ℚ)/100 * 10)).toNat % 10) ++ " mi") :=
  ⟨⟨by norm_num, formatDistance_spec.2.2.2.1 (1/20) (by norm_num)⟩,
   ⟨by norm_num, formatDistance_spec.2.2.2.2 (234/100) (by norm_num)⟩⟩

/-- Claim C10 (confirmed): the popup distance is computed from the group's
raw representative coordinates and does not depend on the adjusted marker
positions at all; without a location it is `undefined`. -/
theorem popupDistance_from_raw_coordinates (calcDist : ℚ → ℚ → ℚ → ℚ → ℚ)
    (loc : UserLocation) (g : StationGroup)
    (adj adj2 : List (String × (ℚ × ℚ))) :
    (markerInput calcDist (some loc) adj g).2 =
      some (calcDist loc.lat loc.lon g.lat g.lon) ∧
    (markerInput calcDist (some loc) adj g).2 =
      (markerInput calcDist (some loc) adj2 g).2 ∧
    (markerInput calcDist none adj g).2 = none :=
  ⟨rfl, rfl, rfl⟩

/-! Helper lemmas for the popup interaction state machine. -/

theorem markerStep_preserves_pinnedOpen (s : MarkerState) (e : MarkerEvent)
    (h1 : s.isPinned = true) (h2 : s.popupOpen = true) (h3 : s.pendingClose = none)
    (he : e ≠ MarkerEvent.closeClick) :
    (markerStep s e).isPinned = true ∧ (markerStep s e).popupOpen = true ∧
      (markerStep s e).pendingClose = none := by
  cases e <;> simp_all [markerStep]

theorem marker_trace (es : List MarkerEvent) : ∀ s : MarkerState,
    s.isPinned = true → s.popupOpen = true → s.pendingClose = none →
    (∀ e ∈ es, e ≠ MarkerEvent.closeClick) →
    (es.foldl markerStep s).isPinned = true ∧
      (es.foldl markerStep s).popupOpen = true ∧
      (es.foldl markerStep s).pendingClose = none := by
  induction es with
  | nil => exact fun s h1 h2 h3 _ => ⟨h1, h2, h3⟩
  | cons e es ih =>
    intro s h1 h2 h3 hes
    obtain ⟨k1, k2, k3⟩ :=
      markerStep_preserves_pinnedOpen s e h1 h2 h3 (hes e (by simp))
    exact ih _ k1 k2 k3 (fun e' he' => hes e' (by simp [he']))

/-- Claim C7 (confirmed): after a click pins the popup (cancelling any
pending close timer), no sequence of events avoiding the close control —
including marker/popup mouse-leaves and timer firings — ever closes the
popup or schedules a close timer; a click on the close control then closes
it immediately and clears the pin. -/
theorem pinned_popup_persists (s : MarkerState) (es : List MarkerEvent)
    (hes : ∀ e ∈ es, e ≠ MarkerEvent.closeClick) :
    ((es.foldl markerStep (markerStep s MarkerEvent.click)).isPinned = true ∧
     (es.foldl markerStep (markerStep s MarkerEvent.click)).popupOpen = true ∧
     (es.foldl markerStep (markerStep s MarkerEvent.click)).pendingClose = none) ∧
    (markerStep (es.foldl markerStep (markerStep s MarkerEvent.click))
        MarkerEvent.closeClick).popupOpen = false ∧
    (markerStep (es.foldl markerStep (markerStep s MarkerEvent.click))
        MarkerEvent.closeClick).isPinned = false := by
  exact ⟨marker_trace es (markerStep s MarkerEvent.click) rfl rfl rfl hes, rfl, rfl⟩

/-- Witness for C7: a concrete pinned marker surviving a mouse-out, a timer
firing, a popup mouse-leave and further hovering. -/
theorem pinned_popup_persists_witness :
    (∀ e ∈ [MarkerEvent.mouseOut, MarkerEvent.timerFire, MarkerEvent.popupLeave,
        MarkerEvent.mouseOver, MarkerEvent.mouseOut], e ≠ MarkerEvent.closeClick) ∧
    (([MarkerEvent.mouseOut, MarkerEvent.timerFire, MarkerEvent.popupLeave,
        MarkerEvent.mouseOver, MarkerEvent.mouseOut].foldl markerStep
        (markerStep ⟨false, false, none⟩ MarkerEvent.click)).isPinned = true ∧
     ([MarkerEvent.mouseOut, MarkerEvent.timerFire, MarkerEvent.popupLeave,
        MarkerEvent.mouseOver, MarkerEvent.mouseOut].foldl markerStep
        (markerStep ⟨false, false, none⟩ MarkerEvent.click)).popupOpen = true ∧
     ([MarkerEvent.mouseOut, MarkerEvent.timerFire, MarkerEvent.popupLeave,
        MarkerEvent.mouseOver, MarkerEvent.mouseOut].foldl markerStep
        (markerStep ⟨false, false, none⟩ MarkerEvent.click)).pendingClose = none) ∧
    (markerStep ([MarkerEvent.mouseOut, MarkerEvent.timerFire, MarkerEvent.popupLeave,
        MarkerEvent.mouseOver, MarkerEvent.mouseOut].foldl markerStep
        (markerStep ⟨false, false, none⟩ MarkerEvent.click))
      MarkerEvent.closeClick).popupOpen = false ∧
    (markerStep ([MarkerEvent.mouseOut, MarkerEvent.timerFire, MarkerEvent.popupLeave,
        MarkerEvent.mouseOver, MarkerEvent.mouseOut].foldl markerStep
        (markerStep ⟨false, false, none⟩ MarkerEvent.click))
      MarkerEvent.closeClick).isPinned = false :=
  ⟨by decide, pinned_popup_persists ⟨false, false, none⟩ _ (by decide)⟩

/-- Claim C9 (confirmed): `sortStopsByDistance` never mutates its input — the
pre-existing objects and arrays of the heap (in particular the input array
and every `Stop` it references) are unchanged after the call, and the
returned array is freshly allocated, in both the location-present and the
location-absent branch. -/
theorem sortStopsByDistance_frame (calcDist : ℚ → ℚ → ℚ → ℚ → ℚ) (h : JSHeap)
    (stopsRef : ℕ) (loc : Option UserLocation)
    (hr : stopsRef < h.arrays.length)
    (hwf : ∀ r ∈ getArr h stopsRef, r < h.objs.length) :
    (sortStopsByDistance calcDist h stopsRef loc).1.objs.take h.objs.length = h.objs ∧
    (sortStopsByDistance calcDist h stopsRef loc).1.arrays.take h.arrays.length = h.arrays ∧
    (sortStopsByDistance calcDist h stopsRef loc).2 = h.arrays.length ∧
    (sortStopsByDistance calcDist h stopsRef loc).2 ≠ stopsRef ∧
    getArr (sortStopsByDistance calcDist h stopsRef loc).1 stopsRef = getArr h stopsRef ∧
    (∀ r ∈ getArr h stopsRef,
      getObj (sortStopsByDistance calcDist h stopsRef loc).1 r = getObj h r) := by
  cases loc with
  | none =>
    refine ⟨List.take_length h.objs, List.take_left _ _, rfl, (Nat.ne_of_lt hr).symm, ?_, ?_⟩
    · exact List.getD_append _ _ _ _ hr
    · intro r _
      rfl
  | some u =>
    refine ⟨List.take_left _ _, List.take_left _ _, rfl, (Nat.ne_of_lt hr).symm, ?_, ?_⟩
    · exact List.getD_append _ _ _ _ hr
    · intro r hrr
      exact List.getD_append _ _ _ _ (hwf r hrr)

/-- Witness for C9: the frame theorem applied to a concrete two-stop heap in
the location-absent branch. -/
theorem sortStopsByDistance_frame_witness :
    (0 < heap0.arrays.length ∧ ∀ r ∈ getArr heap0 0, r < heap0.objs.length) ∧
    ((sortStopsByDistance (fun _ _ _ _ => 0) heap0 0 none).1.objs.take heap0.objs.length
        = heap0.objs ∧
     (sortStopsByDistance (fun _ _ _ _ => 0) heap0 0 none).1.arrays.take heap0.arrays.length
        = heap0.arrays ∧
     (sortStopsByDistance (fun _ _ _ _ => 0) heap0 0 none).2 = heap0.arrays.length ∧
     (sortStopsByDistance (fun _ _ _ _ => 0) heap0 0 none).2 ≠ 0 ∧
     getArr (sortStopsByDistance (fun _ _ _ _ => 0) heap0 0 none).1 0 = getArr heap0 0 ∧
     (∀ r ∈ getArr heap0 0,
       getObj (sortStopsByDistance (fun _ _ _ _ => 0) heap0 0 none).1 r = getObj heap0 r)) :=
  ⟨⟨by decide, by decide⟩,
   sortStopsByDistance_frame (fun _ _ _ _ => 0) heap0 0 none (by decide) (by decide)⟩

/-! Helper lemmas for the marker layout resolver. -/

theorem mem_setKey {β : Type} (k : String) (v : β) :
    ∀ (l : List (String × β)) (x : String × β), x ∈ setKey k v l → x = (k, v) ∨ x ∈ l := by
  intro l
  induction l with
  | nil =>
    intro x hx
    simp [setKey] at hx
    exact Or.inl hx
  | cons p rest ih =>
    obtain ⟨k', v'⟩ := p
    intro x hx
    by_cases hk : k' = k
    · rw [setKey, if_pos hk] at hx
      rcases List.mem_cons.mp hx with rfl | hx'
      · exact Or.inl (by rw [hk])
      · exact Or.inr (List.mem_cons_of_mem _ hx')
    · rw [setKey, if_neg hk] at hx
      rcases List.mem_cons.mp hx with rfl | hx'
      · exact Or.inr (List.mem_cons_self _ _)
      · rcases ih x hx' with h | h
        · exact Or.inl h
        · exact Or.inr (List.mem_cons_of_mem _ h)

theorem adjustLoopGo_false_no_collision (existing : List (ℚ × ℚ))
    (offsetFn : ℕ → ℚ × ℚ) :
    ∀ (fuel : ℕ) (cand : ℚ × ℚ) (attempts : ℕ),
      (adjustLoopGo existing offsetFn fuel cand attempts).2 = false →
      hasCollisionWith existing (adjustLoopGo existing offsetFn fuel cand attempts).1 = false := by
  intro fuel
  induction fuel with
  | zero =>
    intro cand a h
    simp [adjustLoopGo] at h
  | succ fuel ih =>
    intro cand a h
    by_cases hc : hasCollisionWith existing cand = true
    · rw [adjustLoopGo, if_pos hc] at h ⊢
      exact ih _ _ h
    · rw [adjustLoopGo, if_neg hc]
      simpa using hc

theorem adjustLoop_false_no_collision (existing : List (ℚ × ℚ))
    (offsetFn : ℕ → ℚ × ℚ) (raw : ℚ × ℚ)
    (h : (adjustLoop existing offsetFn raw).2 = false) :
    hasCollisionWith existing (adjustLoop existing offsetFn raw).1 = false :=
  adjustLoopGo_false_no_collision existing offsetFn maxAttempts raw 0 h

theorem sep_of_isCollision_false {p q : ℚ × ℚ} (h : isCollision p q = false) :
    MIN_SEPARATION ≤ |p.1 - q.1| ∨ MIN_SEPARATION ≤ |p.2 - q.2| := by
  rw [isCollision, Bool.and_eq_false_iff] at h
  rcases h with h | h
  · exact Or.inl (not_lt.mp (by simpa using h))
  · exact Or.inr (not_lt.mp (by simpa using h))

theorem hasCollisionWith_false_forall {existing : List (ℚ × ℚ)} {c : ℚ × ℚ}
    (h : hasCollisionWith existing c = false) :
    ∀ q ∈ existing, isCollision c q = false := by
  rw [hasCollisionWith, List.any_eq_false] at h
  intro q hq
  simpa using h q hq

theorem map_strip_setKey (k : String) (v : (ℚ × ℚ) × Bool) :
    ∀ l : List (String × ((ℚ × ℚ) × Bool)),
      (setKey k v l).map (fun kv => (kv.1, kv.2.1)) =
        setKey k v.1 (l.map (fun kv => (kv.1, kv.2.1))) := by
  intro l
  induction l with
  | nil => rfl
  | cons p rest ih =>
    obtain ⟨k', v'⟩ := p
    by_cases hk : k' = k <;> simp [setKey, hk, ih]

theorem strip_fold (spiral : StationGroup → ℕ → ℚ × ℚ) :
    ∀ (l : List StationGroup) (acc : List (String × ((ℚ × ℚ) × Bool))),
      l.foldl (fun positions g =>
          setKey g.baseId
            (adjustLoop (positions.map Prod.snd) (spiral g) (g.lat, g.lon)).1 positions)
        (acc.map (fun kv => (kv.1, kv.2.1))) =
      (l.foldl (fun positions g =>
          setKey g.baseId
            (adjustLoop (positions.map (fun kv => kv.2.1)) (spiral g) (g.lat, g.lon)) positions)
        acc).map (fun kv => (kv.1, kv.2.1)) := by
  intro l
  induction l with
  | nil => intro acc; rfl
  | cons g rest ih =>
    intro acc
    rw [List.foldl_cons, List.foldl_cons]
    have hmap : (acc.map (fun kv => (kv.1, kv.2.1))).map Prod.snd =
        acc.map (fun kv => kv.2.1) := by
      rw [List.map_map]
      rfl
    rw [hmap, ← map_strip_setKey]
    exact ih _

theorem adjustedPositions_eq_strip (spiral : StationGroup → ℕ → ℚ × ℚ)
    (groups : List StationGroup) :
    adjustedPositions spiral groups =
      (adjustedPositionsFlagged spiral groups).map (fun kv => (kv.1, kv.2.1)) := by
  simp only [adjustedPositions, adjustedPositionsFlagged]
  exact strip_fold spiral _ []

theorem flagged_fold_sep (spiral : StationGroup → ℕ → ℚ × ℚ) :
    ∀ (l : List StationGroup) (acc : List (String × ((ℚ × ℚ) × Bool))),
      (∀ k1 p1 k2 p2, (k1, (p1, false)) ∈ acc → (k2, (p2, false)) ∈ acc → k1 ≠ k2 →
        MIN_SEPARATION ≤ |p1.1 - p2.1| ∨ MIN_SEPARATION ≤ |p1.2 - p2.2|) →
      ∀ k1 p1 k2 p2,
        (k1, (p1, false)) ∈ l.foldl (fun positions g =>
            setKey g.baseId
              (adjustLoop (positions.map (fun kv => kv.2.1)) (spiral g) (g.lat, g.lon))
              positions) acc →
        (k2, (p2, false)) ∈ l.foldl (fun positions g =>
            setKey g.baseId
              (adjustLoop (positions.map (fun kv => kv.2.1)) (spiral g) (g.lat, g.lon))
              positions) acc →
        k1 ≠ k2 →
        MIN_SEPARATION ≤ |p1.1 - p2.1| ∨ MIN_SEPARATION ≤ |p1.2 - p2.2| := by
  intro l
  induction l with
  | nil => intro acc hacc; exact hacc
  | cons g rest ih =>
    intro acc hacc
    rw [List.foldl_cons]
    apply ih
    intro k1 p1 k2 p2 h1 h2 hk
    have hX := adjustLoop_false_no_collision (acc.map (fun kv => kv.2.1)) (spiral g)
      (g.lat, g.lon)
    rcases mem_setKey _ _ _ _ h1 with he1 | h1'
    · rcases mem_setKey _ _ _ _ h2 with he2 | h2'
      · have e1 : k1 = g.baseId := congrArg Prod.fst he1
        have e2 : k2 = g.baseId := congrArg Prod.fst he2
        exact absurd (e1.trans e2.symm) hk
      · have e1 : (p1, false) = adjustLoop (acc.map (fun kv => kv.2.1)) (spiral g)
            (g.lat, g.lon) := congrArg Prod.snd he1
        have hflag : (adjustLoop (acc.map (fun kv => kv.2.1)) (spiral g) (g.lat, g.lon)).2
            = false := by rw [← e1]
        have hpos : (adjustLoop (acc.map (fun kv => kv.2.1)) (spiral g) (g.lat, g.lon)).1
            = p1 := by rw [← e1]
        have hq : p2 ∈ acc.map (fun kv => kv.2.1) :=
          List.mem_map.mpr ⟨(k2, (p2, false)), h2', rfl⟩
        have hnc := hasCollisionWith_false_forall (hX hflag) p2 hq
        rw [hpos] at hnc
        exact sep_of_isCollision_false hnc
    · rcases mem_setKey _ _ _ _ h2 with he2 | h2'
      · have e2 : (p2, false) = adjustLoop (acc.map (fun kv => kv.2.1)) (spiral g)
            (g.lat, g.lon) := congrArg Prod.snd he2
        have hflag : (adjustLoop (acc.map (fun kv => kv.2.1)) (spiral g) (g.lat, g.lon)).2
            = false := by rw [← e2]
        have hpos : (adjustLoop (acc.map (fun kv => kv.2.1)) (spiral g) (g.lat, g.lon)).1
            = p2 := by rw [← e2]
        have hq : p1 ∈ acc.map (fun kv => kv.2.1) :=
          List.mem_map.mpr ⟨(k1, (p1, false)), h1', rfl⟩
        have hnc := hasCollisionWith_false_forall (hX hflag) p1 hq
        rw [hpos] at hnc
        rcases sep_of_isCollision_false hnc with h | h
        · exact Or.inl (by rwa [abs_sub_comm])
        · exact Or.inr (by rwa [abs_sub_comm])
      · exact hacc k1 p1 k2 p2 h1' h2' hk

/-- Claim C4 (confirmed): `adjustedPositions` agrees with its instrumented
variant, and any two positions assigned to distinct base ids whose
collision-avoidance loops terminated within the attempt budget are
rectangularly separated: `MIN_SEPARATION ≤ |Δlat|` or
`MIN_SEPARATION ≤ |Δlon|`.  Positions whose loop exhausted the budget
(flag `true`) are exempt, as the last spiral candidate is accepted
unchecked. -/
theorem adjustedPositions_separation (spiral : StationGroup → ℕ → ℚ × ℚ)
    (groups : List StationGroup) :
    adjustedPositions spiral groups =
      (adjustedPositionsFlagged spiral groups).map (fun kv => (kv.1, kv.2.1)) ∧
    (∀ k1 p1 k2 p2,
      (k1, (p1, false)) ∈ adjustedPositionsFlagged spiral groups →
      (k2, (p2, false)) ∈ adjustedPositionsFlagged spiral groups →
      k1 ≠ k2 →
      MIN_SEPARATION ≤ |p1.1 - p2.1| ∨ MIN_SEPARATION ≤ |p1.2 - p2.2|) := by
  refine ⟨adjustedPositions_eq_strip spiral groups, ?_⟩
  intro k1 p1 k2 p2 h1 h2 hk
  simp only [adjustedPositionsFlagged] at h1 h2
  exact flagged_fold_sep spiral _ [] (by simp) k1 p1 k2 p2 h1 h2 hk

/-- Evaluation helper: a group whose raw position collides with nothing
keeps its raw position and does not exhaust the budget. -/
theorem adjustLoop_no_collision_eval {existing : List (ℚ × ℚ)}
    {offsetFn : ℕ → ℚ × ℚ} {raw : ℚ × ℚ}
    (h : hasCollisionWith existing raw = false) :
    adjustLoop existing offsetFn raw = (raw, false) := by
  rw [adjustLoop, show maxAttempts = 19 + 1 from rfl, adjustLoopGo, if_neg]
  simp [h]

/-- Evaluation of the flagged resolver on the two concrete far-apart
groups. -/
theorem flagged_eval_AB :
    adjustedPositionsFlagged spiral0 [groupA, groupB] =
      [("A", (((0 : ℚ), (0 : ℚ)), false)), ("B", (((1 : ℚ), (1 : ℚ)), false))] := by
  have hsort : [groupA, groupB].insertionSort
      (fun a b => strLe a.baseId b.baseId = true) = [groupA, groupB] := by
    simp only [List.insertionSort, List.orderedInsert]
    rw [if_pos (by decide : strLe groupA.baseId groupB.baseId = true)]
  have hc1 : hasCollisionWith ([] : List (ℚ × ℚ)) (groupA.lat, groupA.lon) = false := rfl
  have hc2 : hasCollisionWith [((0 : ℚ), (0 : ℚ))] (groupB.lat, groupB.lon) = false := by
    simp only [hasCollisionWith, List.any_cons, List.any_nil, Bool.or_false, isCollision]
    rw [show groupB.lat = (1 : ℚ) from rfl, show groupB.lon = (1 : ℚ) from rfl]
    norm_num [MIN_SEPARATION]
  simp only [adjustedPositionsFlagged]
  rw [hsort, List.foldl_cons, List.map_nil, adjustLoop_no_collision_eval hc1]
  rw [show setKey groupA.baseId (((groupA.lat, groupA.lon), false)) [] =
      [("A", (((0 : ℚ), (0 : ℚ)), false))] from rfl]
  rw [List.foldl_cons, List.foldl_nil]
  rw [show (List.map (fun kv => kv.2.1) [("A", (((0 : ℚ), (0 : ℚ)), false))]) =
      [((0 : ℚ), (0 : ℚ))] from rfl]
  rw [adjustLoop_no_collision_eval hc2]
  rfl

/-- Witness for C4: the two concrete groups are both placed within budget
and their assigned positions are rectangularly separated. -/
theorem adjustedPositions_separation_witness :
    (("A", (((0 : ℚ), (0 : ℚ)), false)) ∈ adjustedPositionsFlagged spiral0 [groupA, groupB] ∧
     ("B", (((1 : ℚ), (1 : ℚ)), false)) ∈ adjustedPositionsFlagged spiral0 [groupA, groupB] ∧
     ("A" : String) ≠ "B") ∧
    (MIN_SEPARATION ≤ |((0 : ℚ), (0 : ℚ)).1 - ((1 : ℚ), (1 : ℚ)).1| ∨
     MIN_SEPARATION ≤ |((0 : ℚ), (0 : ℚ)).2 - ((1 : ℚ), (1 : ℚ)).2|) :=
  ⟨⟨by rw [flagged_eval_AB]; simp, by rw [flagged_eval_AB]; simp, by decide⟩,
   (adjustedPositions_separation spiral0 [groupA, groupB]).2 "A" ((0 : ℚ), (0 : ℚ))
     "B" ((1 : ℚ), (1 : ℚ)) (by rw [flagged_eval_AB]; simp)
     (by rw [flagged_eval_AB]; simp) (by decide)⟩

/-! Helper lemmas: `charListLe` is a decidable linear order. -/

theorem charListLe_total : ∀ a b : List Char, charListLe a b = true ∨ charListLe b a = true
  | [], _ => Or.inl rfl
  | _ :: _, [] => Or.inr rfl
  | a :: as, b :: bs => by
    rcases lt_trichotomy a b with h | h | h
    · exact Or.inl (by simp [charListLe, h])
    · subst h
      rcases charListLe_total as bs with ih | ih
      · exact Or.inl (by simp [charListLe, lt_irrefl, ih])
      · exact Or.inr (by simp [charListLe, lt_irrefl, ih])
    · exact Or.inr (by simp [charListLe, h])

theorem charListLe_trans : ∀ a b c : List Char,
    charListLe a b = true → charListLe b c = true → charListLe a c = true
  | [], _, _, _, _ => rfl
  | _ :: _, [], _, h1, _ => by simp [charListLe] at h1
  | _ :: _, _ :: _, [], _, h2 => by simp [charListLe] at h2
  | a :: as, b :: bs, c :: cs, h1, h2 => by
    rcases lt_trichotomy a b with hab | hab | hab
    · rcases lt_trichotomy b c with hbc | hbc | hbc
      · simp [charListLe, lt_trans hab hbc]
      · subst hbc
        simp [charListLe, hab]
      · rw [charListLe, if_neg (asymm hbc), if_pos hbc] at h2
        exact absurd h2 (by simp)
    · subst hab
      rw [charListLe, if_neg (lt_irrefl a), if_neg (lt_irrefl a)] at h1
      rcases lt_trichotomy a c with hac | hac | hac
      · simp [charListLe, hac]
      · subst hac
        rw [charListLe, if_neg (lt_irrefl a), if_neg (lt_irrefl a)] at h2 ⊢
        exact charListLe_trans as bs cs h1 h2
      · rw [charListLe, if_neg (asymm hac), if_pos hac] at h2
        exact absurd h2 (by simp)
    · rw [charListLe, if_neg (asymm hab), if_pos hab] at h1
      exact absurd h1 (by simp)

theorem charListLe_antisymm : ∀ a b : List Char,
    charListLe a b = true → charListLe b a = true → a = b
  | [], [], _, _ => rfl
  | [], _ :: _, _, h2 => by simp [charListLe] at h2
  | _ :: _, [], h1, _ => by simp [charListLe] at h1
  | a :: as, b :: bs, h1, h2 => by
    rcases lt_trichotomy a b with h | h | h
    · rw [charListLe, if_neg (asymm h), if_pos h] at h2
      exact absurd h2 (by simp)
    · subst h
      rw [charListLe, if_neg (lt_irrefl a), if_neg (lt_irrefl a)] at h1 h2
      rw [charListLe_antisymm as bs h1 h2]
    · rw [charListLe, if_neg (asymm h), if_pos h] at h1
      exact absurd h1 (by simp)

/-- With pairwise-distinct base ids, the sort of the layout resolver is a
deterministic function of the underlying multiset: any two permutations of
the same groups sort to the same list. -/
theorem sortedByKey_unique (l1 l2 : List StationGroup)
    (hperm : l1.Perm l2) (hnd : (l1.map (fun g => g.baseId)).Nodup) :
    l1.insertionSort (fun a b => strLe a.baseId b.baseId = true) =
      l2.insertionSort (fun a b => strLe a.baseId b.baseId = true) := by
  haveI : IsTotal StationGroup (fun a b => strLe a.baseId b.baseId = true) :=
    ⟨fun a b => charListLe_total a.baseId.data b.baseId.data⟩
  haveI : IsTrans StationGroup (fun a b => strLe a.baseId b.baseId = true) :=
    ⟨fun a b c => charListLe_trans a.baseId.data b.baseId.data c.baseId.data⟩
  haveI : IsAntisymm StationGroup
      (fun a b : StationGroup => (strLe a.baseId b.baseId = true) ∧ a.baseId ≠ b.baseId) :=
    ⟨fun a b h1 h2 =>
      absurd (String.ext (charListLe_antisymm _ _ h1.1 h2.1)) h1.2⟩
  have hs1 := List.sorted_insertionSort (fun a b => strLe a.baseId b.baseId = true) l1
  have hs2 := List.sorted_insertionSort (fun a b => strLe a.baseId b.baseId = true) l2
  have hp : (l1.insertionSort (fun a b => strLe a.baseId b.baseId = true)).Perm
      (l2.insertionSort (fun a b => strLe a.baseId b.baseId = true)) :=
    ((List.perm_insertionSort _ l1).trans hperm).trans
      (List.perm_insertionSort _ l2).symm
  have hnd2 : (l2.map (fun g => g.baseId)).Nodup := ((hperm.map _).nodup_iff).mp hnd
  have hnd1' : ((l1.insertionSort (fun a b => strLe a.baseId b.baseId = true)).map
      (fun g => g.baseId)).Nodup := (((List.perm_insertionSort _ l1).map _).nodup_iff).mpr hnd
  have hnd2' : ((l2.insertionSort (fun a b => strLe a.baseId b.baseId = true)).map
      (fun g => g.baseId)).Nodup := (((List.perm_insertionSort _ l2).map _).nodup_iff).mpr hnd2
  have hne1 : List.Pairwise (fun a b : StationGroup => a.baseId ≠ b.baseId)
      (l1.insertionSort (fun a b => strLe a.baseId b.baseId = true)) :=
    List.pairwise_map.mp hnd1'
  have hne2 : List.Pairwise (fun a b : StationGroup => a.baseId ≠ b.baseId)
      (l2.insertionSort (fun a b => strLe a.baseId b.baseId = true)) :=
    List.pairwise_map.mp hnd2'
  exact List.eq_of_perm_of_sorted hp (hs1.and hne1) (hs2.and hne2)

/-- Claim C5 (confirmed): the marker layout resolver is deterministic in the
input collection: two runs on permutations of the same groups (with the
pairwise-distinct base ids the grouper guarantees) assign identical
positions, because the internal sort by base id fixes the processing
order. -/
theorem adjustedPositions_deterministic (spiral : StationGroup → ℕ → ℚ × ℚ)
    (groups1 groups2 : List StationGroup)
    (hperm : groups1.Perm groups2)
    (hnd : (groups1.map (fun g => g.baseId)).Nodup) :
    adjustedPositions spiral groups1 = adjustedPositions spiral groups2 := by
  simp only [adjustedPositions]
  rw [sortedByKey_unique groups1 groups2 hperm hnd]

/-- Witness for C5: the two concrete groups presented in both orders resolve
to the same positions. -/
theorem adjustedPositions_deterministic_witness :
    ([groupA, groupB].Perm [groupB, groupA] ∧
      ([groupA, groupB].map (fun g => g.baseId)).Nodup) ∧
    adjustedPositions spiral0 [groupA, groupB] =
      adjustedPositions spiral0 [groupB, groupA] :=
  ⟨⟨List.Perm.swap groupB groupA [], by decide⟩,
   adjustedPositions_deterministic spiral0 [groupA, groupB] [groupB, groupA]
     (List.Perm.swap groupB groupA []) (by decide)⟩

/-! Helper lemmas about the association-list embedding of keyed records. -/

theorem lookupKey_setKey_self {β : Type} (k : String) (v : β) :
    ∀ l : List (String × β), lookupKey k (setKey k v l) = some v := by
  intro l
  induction l with
  | nil => rw [setKey, lookupKey, if_pos rfl]
  | cons p rest ih =>
    obtain ⟨k', v'⟩ := p
    by_cases hk : k' = k
    · rw [setKey, if_pos hk, lookupKey, if_pos hk]
    · rw [setKey, if_neg hk, lookupKey, if_neg hk]
      exact ih

theorem lookupKey_setKey_ne {β : Type} {k k' : String} (v : β) (h : k' ≠ k) :
    ∀ l : List (String × β), lookupKey k' (setKey k v l) = lookupKey k' l := by
  intro l
  induction l with
  | nil => simp [setKey, lookupKey, Ne.symm h]
  | cons p rest ih =>
    obtain ⟨k'', v''⟩ := p
    by_cases hk : k'' = k
    · rw [setKey, if_pos hk, lookupKey, lookupKey]
      rw [if_neg (by rw [hk]; exact Ne.symm h), if_neg (by rw [hk]; exact Ne.symm h)]
    · rw [setKey, if_neg hk, lookupKey, lookupKey]
      by_cases hk2 : k'' = k'
      · rw [if_pos hk2, if_pos hk2]
      · rw [if_neg hk2, if_neg hk2]
        exact ih

theorem lookupKey_eq_none_iff {β : Type} (k : String) :
    ∀ l : List (String × β), lookupKey k l = none ↔ k ∉ l.map Prod.fst := by
  intro l
  induction l with
  | nil => simp [lookupKey]
  | cons p rest ih =>
    obtain ⟨k', v'⟩ := p
    by_cases hk : k' = k
    · subst hk
      simp [lookupKey]
    · rw [lookupKey, if_neg hk]
      simp only [List.map_cons, List.mem_cons, ih]
      constructor
      · rintro hh (rfl | hm)
        · exact hk rfl
        · exact hh hm
      · intro hh
        exact fun hm => hh (Or.inr hm)

theorem mem_of_lookupKey_some {β : Type} {k : String} {v : β} :
    ∀ {l : List (String × β)}, lookupKey k l = some v → (k, v) ∈ l := by
  intro l
  induction l with
  | nil => intro h; exact absurd h (by rw [lookupKey]; simp)
  | cons p rest ih =>
    obtain ⟨k', v'⟩ := p
    intro h
    by_cases hk : k' = k
    · rw [lookupKey, if_pos hk] at h
      subst hk
      rw [← Option.some.inj h]
      exact List.mem_cons_self _ _
    · rw [lookupKey, if_neg hk] at h
      exact List.mem_cons_of_mem _ (ih h)

theorem lookupKey_of_mem_nodup {β : Type} {k : String} {v : β} :
    ∀ {l : List (String × β)}, (l.map Prod.fst).Nodup → (k, v) ∈ l →
      lookupKey k l = some v := by
  intro l
  induction l with
  | nil => intro _ hm; simp at hm
  | cons p rest ih =>
    obtain ⟨k', v'⟩ := p
    intro hnd hm
    rcases List.mem_cons.mp hm with he | hm'
    · obtain ⟨e1, e2⟩ := Prod.mk.injEq .. ▸ he.symm
      rw [lookupKey, if_pos e1, e2]
    · have hk : k' ≠ k := by
        intro he
        subst he
        have hmem : k' ∈ rest.map Prod.fst := List.mem_map.mpr ⟨(k', v), hm', rfl⟩
        rw [List.map_cons] at hnd
        exact (List.nodup_cons.mp hnd).1 hmem
      rw [lookupKey, if_neg hk]
      exact ih (by rw [List.map_cons] at hnd; exact (List.nodup_cons.mp hnd).2) hm'

theorem values_entry_unique {β : Type} {l : List (String × β)}
    (hnd : (l.map Prod.fst).Nodup) {k : String} {v1 v2 : β}
    (h1 : (k, v1) ∈ l) (h2 : (k, v2) ∈ l) : v1 = v2 :=
  Option.some.inj ((lookupKey_of_mem_nodup hnd h1).symm.trans
    (lookupKey_of_mem_nodup hnd h2))

theorem setKey_eq_append {β : Type} {k : String} (v : β) :
    ∀ {l : List (String × β)}, k ∉ l.map Prod.fst → setKey k v l = l ++ [(k, v)] := by
  intro l
  induction l with
  | nil => intro _; rfl
  | cons p rest ih =>
    obtain ⟨k', v'⟩ := p
    intro hm
    simp only [List.map_cons, List.mem_cons] at hm
    rw [setKey, if_neg (fun he => hm (Or.inl he.symm)), List.cons_append]
    rw [ih (fun hmm => hm (Or.inr hmm))]

theorem keys_setKey_of_mem {β : Type} {k : String} (v : β) :
    ∀ {l : List (String × β)}, k ∈ l.map Prod.fst →
      (setKey k v l).map Prod.fst = l.map Prod.fst := by
  intro l
  induction l with
  | nil => intro hm; simp at hm
  | cons p rest ih =>
    obtain ⟨k', v'⟩ := p
    intro hm
    by_cases hk : k' = k
    · rw [setKey, if_pos hk, List.map_cons, List.map_cons]
    · rw [setKey, if_neg hk, List.map_cons, List.map_cons, ih]
      simp only [List.map_cons, List.mem_cons] at hm
      rcases hm with he | hm'
      · exact absurd he.symm hk
      · exact hm'

theorem keys_setKey_nodup {β : Type} {k : String} (v : β)
    {l : List (String × β)} (hnd : (l.map Prod.fst).Nodup) :
    ((setKey k v l).map Prod.fst).Nodup := by
  by_cases hm : k ∈ l.map Prod.fst
  · rw [keys_setKey_of_mem v hm]
    exact hnd
  · rw [setKey_eq_append v hm, List.map_append]
    rw [List.nodup_append]
    exact ⟨hnd, List.nodup_singleton _, by
      intro a ha hb
      simp only [List.map_cons, List.map_nil, List.mem_singleton] at hb
      subst hb
      exact hm ha⟩

/-! Helper lemmas about the grouper's building blocks. -/

theorem setVariant_baseId (d : Char) (s : Stop) (g : StationGroup) :
    (setVariant d s g).baseId = g.baseId := by
  rw [setVariant]; split <;> rfl

theorem setVariant_name (d : Char) (s : Stop) (g : StationGroup) :
    (setVariant d s g).name = g.name := by
  rw [setVariant]; split <;> rfl

theorem setVariant_lat (d : Char) (s : Stop) (g : StationGroup) :
    (setVariant d s g).lat = g.lat := by
  rw [setVariant]; split <;> rfl

theorem setVariant_lon (d : Char) (s : Stop) (g : StationGroup) :
    (setVariant d s g).lon = g.lon := by
  rw [setVariant]; split <;> rfl

theorem setVariant_type (d : Char) (s : Stop) (g : StationGroup) :
    (setVariant d s g).type = g.type := by
  rw [setVariant]; split <;> rfl

theorem setVariant_stopN (d : Char) (s : Stop) (g : StationGroup) :
    (setVariant d s g).stopN = if d = 'N' then some s else g.stopN := by
  rw [setVariant]; split <;> rfl

theorem setVariant_stopS (d : Char) (s : Stop) (g : StationGroup) :
    (setVariant d s g).stopS = if d = 'N' then g.stopS else some s := by
  rw [setVariant]; split <;> rfl

theorem firstTrainAt_append (k : String) (l : List Stop) (s : Stop) :
    firstTrainAt k (l ++ [s]) = (firstTrainAt k l).or (firstTrainAt k [s]) := by
  simp [firstTrainAt, List.find?_append]

theorem firstTrainAt_singleton_pos {k : String} {s : Stop}
    (h1 : s.type = TransitType.train)
    (h2 : (getDirectionFromStopId s.stop_id).isSome = true)
    (h3 : getBaseStationId s.stop_id = k) :
    firstTrainAt k [s] = some s := by
  simp [firstTrainAt, List.find?_cons, h1, h2, h3]

theorem firstTrainAt_singleton_neg {k : String} {s : Stop}
    (h : ¬(s.type = TransitType.train ∧ (getDirectionFromStopId s.stop_id).isSome = true ∧
        getBaseStationId s.stop_id = k)) :
    firstTrainAt k [s] = none := by
  simp only [firstTrainAt, List.find?_cons, List.find?_nil]
  cases hb : (decide (s.type = TransitType.train) &&
      (getDirectionFromStopId s.stop_id).isSome &&
      decide (getBaseStationId s.stop_id = k)) with
  | true =>
    rw [Bool.and_eq_true, Bool.and_eq_true] at hb
    exact absurd ⟨of_decide_eq_true hb.1.1, hb.1.2, of_decide_eq_true hb.2⟩ h
  | false =>
    rfl

theorem firstTrainAt_mem_and_pred {k : String} {stops : List Stop} {s0 : Stop}
    (h : firstTrainAt k stops = some s0) :
    s0 ∈ stops ∧ s0.type = TransitType.train ∧
      (getDirectionFromStopId s0.stop_id).isSome = true ∧
      getBaseStationId s0.stop_id = k := by
  have hm := List.mem_of_find?_eq_some h
  have hp := List.find?_some h
  rw [Bool.and_eq_true, Bool.and_eq_true] at hp
  exact ⟨hm, of_decide_eq_true hp.1.1, hp.1.2, of_decide_eq_true hp.2⟩

theorem getRoute_ok_of_dir {id : String} {d : Char}
    (hd : getDirectionFromStopId id = some d) (hN : id ≠ "N") (hS : id ≠ "S") :
    ∃ r, getRouteFromStopId id = Except.ok r := by
  apply (routeFromStopId_ok_iff id).mpr
  refine ⟨?_, hN, hS⟩
  intro h
  subst h
  rw [show getDirectionFromStopId "" = none from rfl] at hd
  exact absurd hd (by simp)

theorem nodup_concat_notmem {α : Type} {xs : List α} {x : α}
    (h : (xs ++ [x]).Nodup) : x ∉ xs := by
  rw [List.nodup_append] at h
  exact fun hm => h.2.2 hm (List.mem_singleton_self x)

theorem StopsWF_of_append {l : List Stop} {s : Stop}
    (h : StopsWF (l ++ [s])) : StopsWF l := by
  obtain ⟨h1, h2, h3, h4⟩ := h
  refine ⟨?_, ?_, ?_, ?_⟩
  · exact List.Nodup.sublist ((List.sublist_append_left l [s]).map Stop.stop_id) h1
  · exact fun t ht => h2 t (List.mem_append_left _ ht)
  · exact fun t ht => h3 t (List.mem_append_left _ ht)
  · exact fun b hb t ht => h4 b (List.mem_append_left _ hb) t (List.mem_append_left _ ht)

theorem stop_id_notmem_of_wf {l : List Stop} {s : Stop}
    (h : StopsWF (l ++ [s])) : s.stop_id ∉ l.map Stop.stop_id := by
  obtain ⟨h1, -, -, -⟩ := h
  rw [List.map_append] at h1
  exact nodup_concat_notmem h1

theorem GroupsOk_nil : GroupsOk [] [] := by
  simp [GroupsOk]

theorem bus_step (l : List Stop) (s : Stop) (G : List (String × StationGroup))
    (hwf : StopsWF (l ++ [s])) (hok : GroupsOk l G)
    (hst : s.type ≠ TransitType.train) :
    GroupsOk (l ++ [s]) (setKey s.stop_id (mkBusGroup s) G) := by
  obtain ⟨hnd, hbase, hbus, htrN, htrS, hstoN, hstoS, hstoB, hrep⟩ := hok
  obtain ⟨hids, hNS, hdirA, hdisj⟩ := hwf
  have hsmem : s ∈ l ++ [s] := List.mem_append_right _ (List.mem_singleton_self s)
  have hidfresh : s.stop_id ∉ l.map Stop.stop_id := by
    have h1 := hids
    rw [List.map_append] at h1
    exact nodup_concat_notmem h1
  have hfresh : s.stop_id ∉ G.map Prod.fst := by
    intro hmem
    have hlk : lookupKey s.stop_id G ≠ none :=
      fun hnone => ((lookupKey_eq_none_iff _ G).mp hnone) hmem
    obtain ⟨g, hg⟩ := Option.ne_none_iff_exists'.mp hlk
    have hent := mem_of_lookupKey_some hg
    cases hgt : g.type with
    | bus =>
      obtain ⟨b, hbmem, hbt, hkb, hgb⟩ := hbus (s.stop_id, g) hent hgt
      apply hidfresh
      rw [show s.stop_id = b.stop_id from hkb]
      exact List.mem_map.mpr ⟨b, hbmem, rfl⟩
    | train =>
      obtain ⟨s0, hfind, -, -, -⟩ := hrep (s.stop_id, g) hent hgt
      obtain ⟨hs0mem, hs0t, hs0dir, hs0base⟩ := firstTrainAt_mem_and_pred hfind
      exact hdisj s hsmem s0 (List.mem_append_left _ hs0mem) hst hs0t hs0base.symm
  refine ⟨keys_setKey_nodup _ hnd, ?_, ?_, ?_, ?_, ?_, ?_, ?_, ?_⟩
  · intro p hp
    rcases mem_setKey _ _ _ _ hp with rfl | hp'
    · rfl
    · exact hbase p hp'
  · intro p hp hpt
    rcases mem_setKey _ _ _ _ hp with rfl | hp'
    · exact ⟨s, hsmem, hst, rfl, rfl⟩
    · obtain ⟨b, hb, hx⟩ := hbus p hp' hpt
      exact ⟨b, List.mem_append_left _ hb, hx⟩
  · intro p hp t hsome
    rcases mem_setKey _ _ _ _ hp with rfl | hp'
    · exact absurd hsome (by simp [mkBusGroup])
    · obtain ⟨hm, hx⟩ := htrN p hp' t hsome
      exact ⟨List.mem_append_left _ hm, hx⟩
  · intro p hp t hsome
    rcases mem_setKey _ _ _ _ hp with rfl | hp'
    · exact absurd hsome (by simp [mkBusGroup])
    · obtain ⟨hm, hx⟩ := htrS p hp' t hsome
      exact ⟨List.mem_append_left _ hm, hx⟩
  · intro t ht htt htd
    rcases List.mem_append.mp ht with htl | hts
    · obtain ⟨g, hlkg, hgN⟩ := hstoN t htl htt htd
      refine ⟨g, ?_, hgN⟩
      rw [lookupKey_setKey_ne _
        (Ne.symm (hdisj s hsmem t (List.mem_append_left _ htl) hst htt))]
      exact hlkg
    · rw [List.mem_singleton.mp hts] at htt
      exact absurd htt hst
  · intro t ht htt htd
    rcases List.mem_append.mp ht with htl | hts
    · obtain ⟨g, hlkg, hgS⟩ := hstoS t htl htt htd
      refine ⟨g, ?_, hgS⟩
      rw [lookupKey_setKey_ne _
        (Ne.symm (hdisj s hsmem t (List.mem_append_left _ htl) hst htt))]
      exact hlkg
    · rw [List.mem_singleton.mp hts] at htt
      exact absurd htt hst
  · intro t ht htt
    rcases List.mem_append.mp ht with htl | hts
    · have hne : t.stop_id ≠ s.stop_id := by
        intro he
        exact hidfresh (List.mem_map.mpr ⟨t, htl, he⟩)
      rw [lookupKey_setKey_ne _ hne]
      exact hstoB t htl htt
    · rw [List.mem_singleton.mp hts]
      exact lookupKey_setKey_self _ _ G
  · intro p hp hpt
    rcases mem_setKey _ _ _ _ hp with rfl | hp'
    · exact absurd hpt (by simp [mkBusGroup])
    · obtain ⟨s0, hfind, hx⟩ := hrep p hp' hpt
      refine ⟨s0, ?_, hx⟩
      rw [firstTrainAt_append, hfind]
      rfl

theorem train_step_fresh (l : List Stop) (s : Stop) (G : List (String × StationGroup))
    (d : Char) (r : String)
    (hwf : StopsWF (l ++ [s])) (hok : GroupsOk l G)
    (hst : s.type = TransitType.train)
    (hd : getDirectionFromStopId s.stop_id = some d)
    (hlk : lookupKey (getBaseStationId s.stop_id) G = none) :
    GroupsOk (l ++ [s])
      (setKey (getBaseStationId s.stop_id)
        (setVariant d s (mkFreshGroup (getBaseStationId s.stop_id) r s)) G) := by
  obtain ⟨hnd, hbase, hbus, htrN, htrS, hstoN, hstoS, hstoB, hrep⟩ := hok
  obtain ⟨hids, hNS, hdirA, hdisj⟩ := hwf
  have hsmem : s ∈ l ++ [s] := List.mem_append_right _ (List.mem_singleton_self s)
  have hidfresh : s.stop_id ∉ l.map Stop.stop_id := by
    have h1 := hids
    rw [List.map_append] at h1
    exact nodup_concat_notmem h1
  have hdc := dir_eq_some_cases _ _ hd
  have hnoprev : ∀ t ∈ l, ¬(t.type = TransitType.train ∧
      (getDirectionFromStopId t.stop_id).isSome = true ∧
      getBaseStationId t.stop_id = getBaseStationId s.stop_id) := by
    rintro t htl ⟨htt, htd, htb⟩
    obtain ⟨d', hd'⟩ := Option.isSome_iff_exists.mp htd
    rcases dir_eq_some_cases _ _ hd' with rfl | rfl
    · obtain ⟨g, hg, -⟩ := hstoN t htl htt hd'
      rw [htb, hlk] at hg
      cases hg
    · obtain ⟨g, hg, -⟩ := hstoS t htl htt hd'
      rw [htb, hlk] at hg
      cases hg
  have hfindNone : firstTrainAt (getBaseStationId s.stop_id) l = none := by
    cases hf : firstTrainAt (getBaseStationId s.stop_id) l with
    | none => rfl
    | some s0 =>
      obtain ⟨hm, ht, hdi, hb⟩ := firstTrainAt_mem_and_pred hf
      exact absurd ⟨ht, hdi, hb⟩ (hnoprev s0 hm)
  refine ⟨keys_setKey_nodup _ hnd, ?_, ?_, ?_, ?_, ?_, ?_, ?_, ?_⟩
  · intro p hp
    rcases mem_setKey _ _ _ _ hp with rfl | hp'
    · rw [setVariant_baseId]
      rfl
    · exact hbase p hp'
  · intro p hp hpt
    rcases mem_setKey _ _ _ _ hp with rfl | hp'
    · rw [setVariant_type] at hpt
      exact absurd hpt (by simp [mkFreshGroup])
    · obtain ⟨b, hb, hx⟩ := hbus p hp' hpt
      exact ⟨b, List.mem_append_left _ hb, hx⟩
  · intro p hp t hsome
    rcases mem_setKey _ _ _ _ hp with rfl | hp'
    · rw [setVariant_stopN] at hsome
      by_cases hdN : d = 'N'
      · rw [if_pos hdN] at hsome
        rw [← Option.some.inj hsome]
        exact ⟨hsmem, hst, by rw [hd, hdN], rfl⟩
      · rw [if_neg hdN] at hsome
        exact absurd hsome (by simp [mkFreshGroup])
    · obtain ⟨hm, hx⟩ := htrN p hp' t hsome
      exact ⟨List.mem_append_left _ hm, hx⟩
  · intro p hp t hsome
    rcases mem_setKey _ _ _ _ hp with rfl | hp'
    · rw [setVariant_stopS] at hsome
      by_cases hdN : d = 'N'
      · rw [if_pos hdN] at hsome
        exact absurd hsome (by simp [mkFreshGroup])
      · rw [if_neg hdN] at hsome
        have hdS : d = 'S' := hdc.resolve_left hdN
        rw [← Option.some.inj hsome]
        exact ⟨hsmem, hst, by rw [hd, hdS], rfl⟩
    · obtain ⟨hm, hx⟩ := htrS p hp' t hsome
      exact ⟨List.mem_append_left _ hm, hx⟩
  · intro t ht htt htd
    rcases List.mem_append.mp ht with htl | hts
    · obtain ⟨g, hg, hgN⟩ := hstoN t htl htt htd
      have hne : getBaseStationId t.stop_id ≠ getBaseStationId s.stop_id := by
        intro he
        rw [he, hlk] at hg
        cases hg
      refine ⟨g, ?_, hgN⟩
      rw [lookupKey_setKey_ne _ hne]
      exact hg
    · rw [List.mem_singleton.mp hts] at htd ⊢
      have hdN : d = 'N' := Option.some.inj (hd.symm.trans htd)
      refine ⟨_, lookupKey_setKey_self _ _ G, ?_⟩
      rw [setVariant_stopN, if_pos hdN]
  · intro t ht htt htd
    rcases List.mem_append.mp ht with htl | hts
    · obtain ⟨g, hg, hgS⟩ := hstoS t htl htt htd
      have hne : getBaseStationId t.stop_id ≠ getBaseStationId s.stop_id := by
        intro he
        rw [he, hlk] at hg
        cases hg
      refine ⟨g, ?_, hgS⟩
      rw [lookupKey_setKey_ne _ hne]
      exact hg
    · rw [List.mem_singleton.mp hts] at htd ⊢
      have hdS : d = 'S' := Option.some.inj (hd.symm.trans htd)
      have hdN : ¬(d = 'N') := by
        rw [hdS]
        decide
      refine ⟨_, lookupKey_setKey_self _ _ G, ?_⟩
      rw [setVariant_stopS, if_neg hdN]
  · intro t ht htt
    rcases List.mem_append.mp ht with htl | hts
    · have hne : t.stop_id ≠ getBaseStationId s.stop_id :=
        hdisj t (List.mem_append_left _ htl) s hsmem htt hst
      rw [lookupKey_setKey_ne _ hne]
      exact hstoB t htl htt
    · rw [List.mem_singleton.mp hts] at htt
      exact absurd hst htt
  · intro p hp hpt
    rcases mem_setKey _ _ _ _ hp with rfl | hp'
    · refine ⟨s, ?_, ?_, ?_, ?_⟩
      · rw [firstTrainAt_append, hfindNone]
        exact firstTrainAt_singleton_pos hst (by rw [hd]; rfl) rfl
      · rw [setVariant_name]
        rfl
      · rw [setVariant_lat]
        rfl
      · rw [setVariant_lon]
        rfl
    · obtain ⟨s0, hfind, hx⟩ := hrep p hp' hpt
      refine ⟨s0, ?_, hx⟩
      rw [firstTrainAt_append, hfind]
      rfl

theorem train_step_existing (l : List Stop) (s : Stop)
    (G : List (String × StationGroup)) (d : Char) (g0 : StationGroup)
    (hwf : StopsWF (l ++ [s])) (hok : GroupsOk l G)
    (hst : s.type = TransitType.train)
    (hd : getDirectionFromStopId s.stop_id = some d)
    (hlk : lookupKey (getBaseStationId s.stop_id) G = some g0) :
    GroupsOk (l ++ [s])
      (setKey (getBaseStationId s.stop_id) (setVariant d s g0) G) := by
  obtain ⟨hnd, hbase, hbus, htrN, htrS, hstoN, hstoS, hstoB, hrep⟩ := hok
  obtain ⟨hids, hNS, hdirA, hdisj⟩ := hwf
  have hsmem : s ∈ l ++ [s] := List.mem_append_right _ (List.mem_singleton_self s)
  have hidfresh : s.stop_id ∉ l.map Stop.stop_id := by
    have h1 := hids
    rw [List.map_append] at h1
    exact nodup_concat_notmem h1
  have hdc := dir_eq_some_cases _ _ hd
  have hent : (getBaseStationId s.stop_id, g0) ∈ G := mem_of_lookupKey_some hlk
  have hbase0 : g0.baseId = getBaseStationId s.stop_id := hbase _ hent
  have hg0t : g0.type = TransitType.train := by
    cases hgt : g0.type with
    | train => rfl
    | bus =>
      obtain ⟨b, hbmem, hbt, hkb, -⟩ := hbus _ hent hgt
      exact absurd hkb.symm
        (hdisj b (List.mem_append_left _ hbmem) s hsmem hbt hst)
  have hnotr : ∀ t ∈ l, getDirectionFromStopId t.stop_id = some d →
      getBaseStationId t.stop_id = getBaseStationId s.stop_id → False := by
    intro t htl htd' htb
    have he : t.stop_id = s.stop_id := stopId_ext_of_base_dir htd' hd htb
    exact hidfresh (List.mem_map.mpr ⟨t, htl, he⟩)
  refine ⟨keys_setKey_nodup _ hnd, ?_, ?_, ?_, ?_, ?_, ?_, ?_, ?_⟩
  · intro p hp
    rcases mem_setKey _ _ _ _ hp with rfl | hp'
    · rw [setVariant_baseId]
      exact hbase0
    · exact hbase p hp'
  · intro p hp hpt
    rcases mem_setKey _ _ _ _ hp with rfl | hp'
    · rw [setVariant_type, hg0t] at hpt
      exact absurd hpt (by simp)
    · obtain ⟨b, hb, hx⟩ := hbus p hp' hpt
      exact ⟨b, List.mem_append_left _ hb, hx⟩
  · intro p hp t hsome
    rcases mem_setKey _ _ _ _ hp with rfl | hp'
    · rw [setVariant_stopN] at hsome
      by_cases hdN : d = 'N'
      · rw [if_pos hdN] at hsome
        rw [← Option.some.inj hsome]
        exact ⟨hsmem, hst, by rw [hd, hdN], rfl⟩
      · rw [if_neg hdN] at hsome
        obtain ⟨hm, hx⟩ := htrN _ hent t hsome
        exact ⟨List.mem_append_left _ hm, hx⟩
    · obtain ⟨hm, hx⟩ := htrN p hp' t hsome
      exact ⟨List.mem_append_left _ hm, hx⟩
  · intro p hp t hsome
    rcases mem_setKey _ _ _ _ hp with rfl | hp'
    · rw [setVariant_stopS] at hsome
      by_cases hdN : d = 'N'
      · rw [if_pos hdN] at hsome
        obtain ⟨hm, hx⟩ := htrS _ hent t hsome
        exact ⟨List.mem_append_left _ hm, hx⟩
      · rw [if_neg hdN] at hsome
        have hdS : d = 'S' := hdc.resolve_left hdN
        rw [← Option.some.inj hsome]
        exact ⟨hsmem, hst, by rw [hd, hdS], rfl⟩
    · obtain ⟨hm, hx⟩ := htrS p hp' t hsome
      exact ⟨List.mem_append_left _ hm, hx⟩
  · intro t ht htt htd
    rcases List.mem_append.mp ht with htl | hts
    · obtain ⟨g, hg, hgN⟩ := hstoN t htl htt htd
      by_cases hb : getBaseStationId t.stop_id = getBaseStationId s.stop_id
      · have hgg0 : g = g0 := by
          rw [hb, hlk] at hg
          exact (Option.some.inj hg).symm
        by_cases hdN : d = 'N'
        · exact absurd hb (fun hbb => hnotr t htl (by rw [htd, hdN]) hbb)
        · refine ⟨setVariant d s g0, ?_, ?_⟩
          · rw [hb]
            exact lookupKey_setKey_self _ _ G
          · rw [setVariant_stopN, if_neg hdN, ← hgg0]
            exact hgN
      · refine ⟨g, ?_, hgN⟩
        rw [lookupKey_setKey_ne _ hb]
        exact hg
    · rw [List.mem_singleton.mp hts] at htd ⊢
      have hdN : d = 'N' := Option.some.inj (hd.symm.trans htd)
      refine ⟨_, lookupKey_setKey_self _ _ G, ?_⟩
      rw [setVariant_stopN, if_pos hdN]
  · intro t ht htt htd
    rcases List.mem_append.mp ht with htl | hts
    · obtain ⟨g, hg, hgS⟩ := hstoS t htl htt htd
      by_cases hb : getBaseStationId t.stop_id = getBaseStationId s.stop_id
      · have hgg0 : g = g0 := by
          rw [hb, hlk] at hg
          exact (Option.some.inj hg).symm
        by_cases hdN : d = 'N'
        · refine ⟨setVariant d s g0, ?_, ?_⟩
          · rw [hb]
            exact lookupKey_setKey_self _ _ G
          · rw [setVariant_stopS, if_pos hdN, ← hgg0]
            exact hgS
        · have hdS : d = 'S' := hdc.resolve_left hdN
          exact absurd hb (fun hbb => hnotr t htl (by rw [htd, hdS]) hbb)
      · refine ⟨g, ?_, hgS⟩
        rw [lookupKey_setKey_ne _ hb]
        exact hg
    · rw [List.mem_singleton.mp hts] at htd ⊢
      have hdS : d = 'S' := Option.some.inj (hd.symm.trans htd)
      have hdN : ¬(d = 'N') := by
        rw [hdS]
        decide
      refine ⟨_, lookupKey_setKey_self _ _ G, ?_⟩
      rw [setVariant_stopS, if_neg hdN]
  · intro t ht htt
    rcases List.mem_append.mp ht with htl | hts
    · have hne : t.stop_id ≠ getBaseStationId s.stop_id :=
        hdisj t (List.mem_append_left _ htl) s hsmem htt hst
      rw [lookupKey_setKey_ne _ hne]
      exact hstoB t htl htt
    · rw [List.mem_singleton.mp hts] at htt
      exact absurd hst htt
  · intro p hp hpt
    rcases mem_setKey _ _ _ _ hp with rfl | hp'
    · obtain ⟨s0, hfind, hn, hla, hlo⟩ := hrep _ hent hg0t
      refine ⟨s0, ?_, ?_, ?_, ?_⟩
      · rw [firstTrainAt_append, hfind]
        rfl
      · rw [setVariant_name]
        exact hn
      · rw [setVariant_lat]
        exact hla
      · rw [setVariant_lon]
        exact hlo
    · obtain ⟨s0, hfind, hx⟩ := hrep p hp' hpt
      refine ⟨s0, ?_, hx⟩
      rw [firstTrainAt_append, hfind]
      rfl

theorem buildStationGroups_ok (stops : List Stop) (hwf : StopsWF stops) :
    ∃ G, buildStationGroups stops = Except.ok G ∧ GroupsOk stops G := by
  induction stops using List.reverseRecOn with
  | nil => exact ⟨[], rfl, GroupsOk_nil⟩
  | append_singleton l s ih =>
    obtain ⟨G, hG, hok⟩ := ih (StopsWF_of_append hwf)
    have hfold : buildStationGroups (l ++ [s]) = stationGroupsStep G s := by
      rw [buildStationGroups, List.foldl_append, List.foldl_cons, List.foldl_nil]
      rw [show List.foldl
          (fun acc stop =>
            match acc with
            | Except.error e => Except.error e
            | Except.ok groups => stationGroupsStep groups stop)
          (Except.ok []) l = buildStationGroups l from rfl, hG]
    have hsmem : s ∈ l ++ [s] := List.mem_append_right _ (List.mem_singleton_self s)
    by_cases hst : s.type = TransitType.train
    · obtain ⟨d, hd⟩ := Option.isSome_iff_exists.mp (hwf.2.2.1 s hsmem hst)
      obtain ⟨r, hr⟩ :=
        getRoute_ok_of_dir hd (hwf.2.1 s hsmem hst).1 (hwf.2.1 s hsmem hst).2
      cases hlk : lookupKey (getBaseStationId s.stop_id) G with
      | none =>
        refine ⟨_, ?_, train_step_fresh l s G d r hwf hok hst hd hlk⟩
        rw [hfold, stationGroupsStep, if_neg (not_not_intro hst), hd, hr]
        dsimp only
        rw [hlk]
      | some g0 =>
        refine ⟨_, ?_, train_step_existing l s G d g0 hwf hok hst hd hlk⟩
        rw [hfold, stationGroupsStep, if_neg (not_not_intro hst), hd, hr]
        dsimp only
        rw [hlk]
    · refine ⟨_, ?_, bus_step l s G hwf hok hst⟩
      rw [hfold, stationGroupsStep, if_pos hst]

/-- Claim C3 (corrected, amended): under the well-formedness forced by the
counterexample — globally unique stop ids, train records carrying direction
suffixes with nonempty base ids, and no non-train stop id colliding with a
train base id — the grouper succeeds and (i) every record is accounted for
by exactly one output group, (ii) two train records with the same base id
and opposite directions land in a single group holding both variants,
(iii) a train group's representative name/lat/lon come from the first train
record seen for its base id, (iv) distinct groups have distinct base ids,
and (v) every bus group is the untouched singleton of one non-train
record. -/
theorem stationGroups_grouping (stops : List Stop) (hwf : StopsWF stops) :
    ∃ gs, stationGroups stops = Except.ok gs ∧
      (∀ s ∈ stops, ∃! g, g ∈ gs ∧ containsRecord g s) ∧
      (∀ t1 ∈ stops, ∀ t2 ∈ stops,
        t1.type = TransitType.train → t2.type = TransitType.train →
        getDirectionFromStopId t1.stop_id = some 'N' →
        getDirectionFromStopId t2.stop_id = some 'S' →
        getBaseStationId t1.stop_id = getBaseStationId t2.stop_id →
        ∃ g ∈ gs, g.stopN = some t1 ∧ g.stopS = some t2) ∧
      (∀ g ∈ gs, g.type = TransitType.train →
        ∃ s0, firstTrainAt g.baseId stops = some s0 ∧
          g.name = s0.stop_name ∧ g.lat = s0.lat ∧ g.lon = s0.lon) ∧
      (∀ g1 ∈ gs, ∀ g2 ∈ gs, g1 ≠ g2 → g1.baseId ≠ g2.baseId) ∧
      (∀ g ∈ gs, g.type = TransitType.bus →
        ∃ s ∈ stops, s.type ≠ TransitType.train ∧ g = mkBusGroup s) := by
  obtain ⟨G, hbuild, hok⟩ := buildStationGroups_ok stops hwf
  obtain ⟨hnd, hbase, hbus, htrN, htrS, hstoN, hstoS, hstoB, hrep⟩ := hok
  refine ⟨G.map Prod.snd, ?_, ?_, ?_, ?_, ?_, ?_⟩
  · rw [stationGroups, hbuild]
  · intro s hs
    by_cases hst : s.type = TransitType.train
    · obtain ⟨d, hd⟩ := Option.isSome_iff_exists.mp (hwf.2.2.1 s hs hst)
      rcases dir_eq_some_cases _ _ hd with rfl | rfl
      · obtain ⟨g, hg, hgN⟩ := hstoN s hs hst hd
        have hentg : (getBaseStationId s.stop_id, g) ∈ G := mem_of_lookupKey_some hg
        refine ⟨g, ⟨List.mem_map.mpr ⟨_, hentg, rfl⟩, ?_⟩, ?_⟩
        · simp only [containsRecord]
          rw [if_pos hst]
          exact Or.inl hgN
        · rintro g' ⟨hg'mem, hg'c⟩
          simp only [containsRecord] at hg'c
          rw [if_pos hst] at hg'c
          obtain ⟨p, hpent, hpg⟩ := List.mem_map.mp hg'mem
          rcases hg'c with hN | hS
          · have hN' : p.2.stopN = some s := by rw [hpg]; exact hN
            obtain ⟨-, -, -, hb⟩ := htrN p hpent s hN'
            have hpent' : (getBaseStationId s.stop_id, p.2) ∈ G := by
              rw [hb]
              exact hpent
            rw [← hpg]
            exact values_entry_unique hnd hpent' hentg
          · have hS' : p.2.stopS = some s := by rw [hpg]; exact hS
            obtain ⟨-, -, hdS, -⟩ := htrS p hpent s hS'
            rw [hd] at hdS
            exact absurd (Option.some.inj hdS) (by decide)
      · obtain ⟨g, hg, hgS⟩ := hstoS s hs hst hd
        have hentg : (getBaseStationId s.stop_id, g) ∈ G := mem_of_lookupKey_some hg
        refine ⟨g, ⟨List.mem_map.mpr ⟨_, hentg, rfl⟩, ?_⟩, ?_⟩
        · simp only [containsRecord]
          rw [if_pos hst]
          exact Or.inr hgS
        · rintro g' ⟨hg'mem, hg'c⟩
          simp only [containsRecord] at hg'c
          rw [if_pos hst] at hg'c
          obtain ⟨p, hpent, hpg⟩ := List.mem_map.mp hg'mem
          rcases hg'c with hN | hS
          · have hN' : p.2.stopN = some s := by rw [hpg]; exact hN
            obtain ⟨-, -, hdN, -⟩ := htrN p hpent s hN'
            rw [hd] at hdN
            exact absurd (Option.some.inj hdN) (by decide)
          · have hS' : p.2.stopS = some s := by rw [hpg]; exact hS
            obtain ⟨-, -, -, hb⟩ := htrS p hpent s hS'
            have hpent' : (getBaseStationId s.stop_id, p.2) ∈ G := by
              rw [hb]
              exact hpent
            rw [← hpg]
            exact values_entry_unique hnd hpent' hentg
    · have hlkb := hstoB s hs hst
      refine ⟨mkBusGroup s,
        ⟨List.mem_map.mpr ⟨_, mem_of_lookupKey_some hlkb, rfl⟩, ?_⟩, ?_⟩
      · simp only [containsRecord]
        rw [if_neg hst]
        trivial
      · rintro g' ⟨-, hc⟩
        simp only [containsRecord] at hc
        rwa [if_neg hst] at hc
  · intro t1 h1 t2 h2 ht1 ht2 hd1 hd2 hb
    obtain ⟨g, hg, hgN⟩ := hstoN t1 h1 ht1 hd1
    obtain ⟨g', hg', hgS⟩ := hstoS t2 h2 ht2 hd2
    rw [hb, hg'] at hg
    refine ⟨g', List.mem_map.mpr ⟨_, mem_of_lookupKey_some hg', rfl⟩, ?_, hgS⟩
    rw [Option.some.inj hg]
    exact hgN
  · intro g hgmem hgt
    obtain ⟨p, hpent, hpg⟩ := List.mem_map.mp hgmem
    have hgt' : p.2.type = TransitType.train := by rw [hpg]; exact hgt
    obtain ⟨s0, hfind, hn, hla, hlo⟩ := hrep p hpent hgt'
    refine ⟨s0, ?_, ?_, ?_, ?_⟩
    · rw [← hpg, hbase p hpent]
      exact hfind
    · rw [← hpg]
      exact hn
    · rw [← hpg]
      exact hla
    · rw [← hpg]
      exact hlo
  · intro g1 hm1 g2 hm2 hne heq
    obtain ⟨p1, hp1, e1⟩ := List.mem_map.mp hm1
    obtain ⟨p2, hp2, e2⟩ := List.mem_map.mp hm2
    have hk : p1.1 = p2.1 := by
      rw [← hbase p1 hp1, ← hbase p2 hp2, e1, e2, heq]
    have hp2' : (p1.1, p2.2) ∈ G := by
      rw [hk]
      exact hp2
    have hv : p1.2 = p2.2 := values_entry_unique hnd hp1 hp2'
    exact hne (by rw [← e1, ← e2, hv])
  · intro g hm hgt
    obtain ⟨p, hp, e⟩ := List.mem_map.mp hm
    have hgt' : p.2.type = TransitType.bus := by rw [e]; exact hgt
    obtain ⟨b, hb, hbt, -, hgb⟩ := hbus p hp hgt'
    refine ⟨b, hb, hbt, ?_⟩
    rw [← e]
    exact hgb

/-- Claim C3 (corrected), counterexample: a train record "L12N" followed by
a bus record whose stop id "L12" equals the train's base id yields a SINGLE
group — the bus assignment overwrites the train group under the shared key,
so the train record is merged away and maps to no group, contradicting the
claim that non-train records are never merged with any other record. -/
theorem stationGroups_counterexample :
    stationGroups [stopL12N, busL12] = Except.ok [mkBusGroup busL12] ∧
    (mkBusGroup busL12).type = TransitType.bus ∧
    (mkBusGroup busL12).stopN = none ∧ (mkBusGroup busL12).stopS = none :=
  ⟨rfl, rfl, rfl, rfl⟩

/-- Witness for C3: the amended theorem applied to the concrete two-record
input "L12N"/"L12S". -/
theorem stationGroups_grouping_witness :
    StopsWF [stopL12N, stopL12S] ∧
    (∃ gs, stationGroups [stopL12N, stopL12S] = Except.ok gs ∧
      ∀ s ∈ [stopL12N, stopL12S], ∃! g, g ∈ gs ∧ containsRecord g s) := by
  have hwf0 : StopsWF [stopL12N, stopL12S] := by
    simp only [StopsWF]
    decide
  obtain ⟨gs, h1, h2, -⟩ := stationGroups_grouping [stopL12N, stopL12S] hwf0
  exact ⟨hwf0, gs, h1, h2⟩
